import Mathlib

/-!
Shared-memory telemetry bridge (`mods/utridu/src/main.cpp`)

A shallow embedding of the per-frame producer callback `MyPlayLayer::rl_loop`
and of its helpers `getObjectCategory` and `categoryToInt`.

Conventions of the embedding:

* C++ `float` values are exact rationals (`ℚ`); rounding, infinities and NaN
  are outside the model.
* C++ `int` values are integers (`Int`); the one arithmetic update of an `int`
  (`m_stuckFrames++`) wraps modulo `2^32`.
* Calls into the host simulation (`resetLevel`, `createCheckpoint`,
  `pushButton`, `releaseButton`) are recorded, in program order, in a call log;
  each entry carries the shared-memory contents at the moment of the call.
* HUD text and debug drawing do not touch shared memory or the tracker fields
  and are left out.
-/

namespace GDRL

/-! ## Data model -/

/-- Capacity of the slot table (`const int MAX_OBJECTS = 30`). -/
def MAX_OBJECTS : Nat := 30

/-- One slot of the shared table (`struct ObjectData`). -/
structure ObjectData where
  dx : ℚ
  dy : ℚ
  w : ℚ
  h : ℚ
  type : Int
deriving DecidableEq

/-- The shared region (`struct SharedState`); `objects` is the array
`ObjectData objects[MAX_OBJECTS]`. -/
structure SharedState where
  cpp_writing : Int
  py_writing : Int
  player_x : ℚ
  player_y : ℚ
  player_vel_x : ℚ
  player_vel_y : ℚ
  player_rot : ℚ
  gravity : Int
  is_on_ground : Int
  is_dead : Int
  is_terminal : Int
  percent : ℚ
  dist_nearest_hazard : ℚ
  dist_nearest_solid : ℚ
  player_mode : Int
  player_speed : ℚ
  objects : List ObjectData
  action_command : Int
  reset_command : Int
  checkpoint_command : Int
deriving DecidableEq

/-- The producer-private fields (`struct Fields`), without the two UI node
pointers. -/
structure Fields where
  m_isHolding : Bool
  m_showDebug : Bool
  m_lastX : ℚ
  m_lastPercent : ℚ
  m_stuckFrames : Int
deriving DecidableEq

/-- The host enumeration `GameObjectType`: the two enumerators the code tests
for, and every other enumerator by its numeric value. -/
inductive GameObjectType where
  | Hazard
  | Solid
  | Other (tag : Nat)
deriving DecidableEq

/-- The host rectangle `CCRect` (origin and size). -/
structure CCRect where
  x : ℚ
  y : ℚ
  width : ℚ
  height : ℚ
deriving DecidableEq

/-- The accessor `CCRect::getMinX`. -/
def CCRect.getMinX (r : CCRect) : ℚ := r.x

/-- The accessor `CCRect::getMaxX`. -/
def CCRect.getMaxX (r : CCRect) : ℚ := r.x + r.width

/-- The accessor `CCRect::getMidY`. -/
def CCRect.getMidY (r : CCRect) : ℚ := r.y + r.height / 2

/-- What the code reads of a host `GameObject`. -/
structure GameObject where
  m_objectID : Int
  m_objectType : GameObjectType
  objectRect : CCRect
deriving DecidableEq

/-- What the code reads of the host player (`m_player1`). -/
structure PlayerObject where
  position_x : ℚ
  position_y : ℚ
  objectRect : CCRect
  m_isDead : Bool
  m_yVelocity : ℚ
  rotation : ℚ
  m_isUpsideDown : Bool
  m_isOnGround : Bool
  m_isShip : Bool
  m_playerSpeed : ℚ
deriving DecidableEq

/-- A collected object (`struct RLObject`). -/
structure RLObject where
  category : String
  rect : CCRect
  dx : ℚ
  dy : ℚ
  w : ℚ
  h : ℚ
deriving DecidableEq

/-- The host calls the callback makes. -/
inductive HostCall where
  | resetLevel
  | createCheckpoint
  | pushButton
  | releaseButton
deriving DecidableEq

/-! ## Classification -/

/-- The helper `getObjectCategory`; `none` is the null pointer. -/
def getObjectCategory (go : Option GameObject) : String :=
  match go with
  | none => "unknown"
  | some g =>
    let id := g.m_objectID
    if g.m_objectType = GameObjectType.Hazard then "spike"
    else if g.m_objectType = GameObjectType.Solid then "solid_block"
    else if id = 12 then "cube_portal"
    else if id = 13 then "ship_portal"
    else if id = 47 then "ball_portal"
    else if id = 111 then "ufo_portal"
    else if id = 660 then "wave_portal"
    else if id = 1331 then "spider_portal"
    else if id = 101 then "mini_portal"
    else if id = 99 then "normal_portal"
    else "decoration"

/-- Whether `pat` starts the character list `s`. -/
def startsWith (pat : List Char) (s : List Char) : Bool :=
  match pat, s with
  | [], _ => true
  | _ :: _, [] => false
  | p :: ps, c :: cs => p == c && startsWith ps cs

/-- Whether `pat` occurs in `s` (`std::string::find(pat) != npos`). -/
def occursIn (pat : List Char) (s : List Char) : Bool :=
  match s with
  | [] => startsWith pat []
  | c :: cs => startsWith pat (c :: cs) || occursIn pat cs

/-- The helper `categoryToInt`. -/
def categoryToInt (cat : String) : Int :=
  if cat = "spike" then 1
  else if cat = "solid_block" then 2
  else if occursIn "portal".data cat.data then 5
  else 0

/-- The identifiers of the portal table of `getObjectCategory`. -/
def portalIds : List Int := [12, 13, 47, 111, 660, 1331, 101, 99]

/-! ## Host input and producer state -/

/-- What one invocation of the callback receives from the host: the frame
delta, the player (`none` is the null pointer), the level length, the practice
flag, the object array (`none` is an entry that is not a `GameObject`), and the
values seen by the successive volatile reads of `py_writing`. -/
structure Frame where
  dt : ℚ
  m_player1 : Option PlayerObject
  m_levelLength : ℚ
  m_isPracticeMode : Bool
  m_objects : List (Option GameObject)
  py_writing_reads : Nat → Int

/-- The state the callback works on: the mapped region (`none` is the null
`pSharedMem`) and the private fields. -/
structure World where
  pSharedMem : Option SharedState
  fields : Fields
deriving DecidableEq

/-- The outcome of one invocation: the state left behind, the host calls made
(each with the shared memory at the time of the call), the number of
iterations the busy-wait executed, and the values stored into `cpp_writing`,
in program order. -/
structure CycleResult where
  world : World
  calls : List (HostCall × SharedState)
  spins : Nat
  cpp_writing_stores : List Int

/-! ## Command phase -/

/-- The checkpoint command block of `rl_loop`. -/
def handleCheckpoint (practice : Bool) (mem : SharedState) :
    SharedState × List (HostCall × SharedState) :=
  if mem.checkpoint_command = 1 then
    let mem1 := { mem with checkpoint_command := 0 }
    if practice then (mem1, [(HostCall.createCheckpoint, mem1)])
    else (mem1, [])
  else (mem, [])

/-- The busy-wait `while (py_writing == 1 && safety < 5000) safety++`, entered
with the counter at `safety`; the read made while the counter is `k` sees
`reads k`. The result is the final value of the counter. -/
def spinFrom (reads : Nat → Int) (safety : Nat) : Nat :=
  if reads safety = 1 ∧ safety < 5000 then spinFrom reads (safety + 1) else safety
termination_by 5000 - safety
decreasing_by omega

/-! ## Kinematic and termination tracker -/

/-- Two's-complement wrap of an `int`. -/
def wrapInt32 (n : Int) : Int := (n + 2147483648) % 4294967296 - 2147483648

/-- Conversion of a C++ `bool` to `int`. -/
def boolToInt (b : Bool) : Int := if b then 1 else 0

/-- The local `real_vel_x`. -/
def realVelX (dt posX lastX : ℚ) : ℚ :=
  if dt > 1 / 10000 then (posX - lastX) / dt else 0

/-- The local `currentPct`. -/
def currentPct (posX levelLength : ℚ) : ℚ :=
  if levelLength > 0 then (posX / levelLength) * 100 else 0

/-- The update of `m_stuckFrames`. -/
def stuckUpdate (pct lastPct : ℚ) (engineDead : Bool) (stuck : Int) : Int :=
  if |pct - lastPct| < 1 / 10000 ∧ pct > 1 / 2 ∧ engineDead = false then wrapInt32 (stuck + 1)
  else 0

/-! ## Spatial feature extractor -/

/-- The locals of the object scan. -/
structure ScanState where
  nearbyObjects : List RLObject
  nearestHazard : ℚ
  nearestSolid : ℚ
deriving DecidableEq

/-- The body of the `CCARRAY_FOREACH` loop for one array entry. -/
def scanStep (pRect : CCRect) (s : ScanState) (obj : Option GameObject) : ScanState :=
  match obj with
  | none => s
  | some go =>
    let objRect := go.objectRect
    let dx := objRect.getMinX - pRect.getMaxX
    let dy := objRect.getMidY - pRect.getMidY
    if dx < -50 ∨ dx > 800 then s
    else
      let cat := getObjectCategory (some go)
      if cat = "decoration" ∨ cat = "unknown" then s
      else
        let nearestHazard :=
          if dx > 0 ∧ cat = "spike" ∧ dx < s.nearestHazard then dx else s.nearestHazard
        let nearestSolid :=
          if dx > 0 ∧ cat = "solid_block" ∧ dx < s.nearestSolid then dx else s.nearestSolid
        let rlo : RLObject :=
          { category := cat, rect := objRect, dx := dx, dy := dy,
            w := objRect.width, h := objRect.height }
        { nearbyObjects := s.nearbyObjects ++ [rlo],
          nearestHazard := nearestHazard,
          nearestSolid := nearestSolid }

/-- The whole object scan, from the initial locals. -/
def scanObjects (pRect : CCRect) (objs : List (Option GameObject)) : ScanState :=
  objs.foldl (scanStep pRect) { nearbyObjects := [], nearestHazard := 9999, nearestSolid := 9999 }

/-- Insertion of `x` into a list ordered by `less`, after the elements that are
less than `x` and before the first one that is not. -/
def insertOrdered {α : Type} (less : α → α → Bool) (x : α) : List α → List α
  | [] => [x]
  | y :: ys => if less y x then y :: insertOrdered less x ys else x :: y :: ys

/-- The call `std::sort(first, last, less)`: the library promises an ordered
permutation and leaves the order of equivalent elements open; this model keeps
them in their original order. -/
def stdSort {α : Type} (less : α → α → Bool) : List α → List α
  | [] => []
  | x :: xs => insertOrdered less x (stdSort less xs)

/-- The comparator passed to `std::sort`. -/
def dxLess (a b : RLObject) : Bool := decide (a.dx < b.dx)

/-- The slot written for a collected object. -/
def slotOf (o : RLObject) : ObjectData :=
  { dx := o.dx, dy := o.dy, w := o.w, h := o.h, type := categoryToInt o.category }

/-- The slot written past the end of the collected objects. -/
def paddingSlot : ObjectData :=
  { dx := 9999, dy := 0, w := 0, h := 0, type := -1 }

/-- The loop writing `objects[0..MAX_OBJECTS-1]`: entry `i` of the result is
what the iteration `i` stores in `objects[i]`. -/
def writeObjects (nearby : List RLObject) : List ObjectData :=
  (List.range MAX_OBJECTS).map fun i =>
    if h : i < nearby.length then slotOf (nearby.get ⟨i, h⟩) else paddingSlot

/-! ## Action phase -/

/-- The action block of `rl_loop`: the new `m_isHolding` and the button call
made, if any. -/
def applyAction (cmd : Int) (holding : Bool) : Bool × List HostCall :=
  if cmd = 1 then
    if !holding then (true, [HostCall.pushButton]) else (holding, [])
  else
    if holding then (false, [HostCall.releaseButton]) else (holding, [])

/-! ## The callback -/

/-- The part of `rl_loop` from `LOCK` to `UNLOCK`: tracker update and snapshot
write. -/
def writeSnapshot (fr : Frame) (player : PlayerObject) (mem : SharedState) (f : Fields) :
    SharedState × Fields :=
  let mem := { mem with cpp_writing := 1 }
  let posX := player.position_x
  let pRect := player.objectRect
  let real_vel_x := realVelX fr.dt posX f.m_lastX
  let f := { f with m_lastX := posX }
  let engineDead := player.m_isDead
  let pct := currentPct posX fr.m_levelLength
  let f := { f with m_stuckFrames := stuckUpdate pct f.m_lastPercent engineDead f.m_stuckFrames }
  let f := { f with m_lastPercent := pct }
  let isStuckDead : Bool := decide (f.m_stuckFrames > 30)
  let effectiveDead : Bool := engineDead || isStuckDead
  let levelComplete : Bool := decide (pct ≥ 100)
  let modeInt : Int := if player.m_isShip then 1 else 0
  let scan := scanObjects pRect fr.m_objects
  let sorted := stdSort dxLess scan.nearbyObjects
  let mem := { mem with
    player_x := posX,
    player_y := player.position_y,
    player_vel_x := real_vel_x,
    player_vel_y := player.m_yVelocity,
    player_rot := player.rotation,
    gravity := if player.m_isUpsideDown then -1 else 1,
    is_on_ground := boolToInt player.m_isOnGround,
    is_dead := boolToInt effectiveDead,
    is_terminal := boolToInt (effectiveDead || levelComplete),
    percent := pct,
    player_mode := modeInt,
    player_speed := player.m_playerSpeed,
    dist_nearest_hazard := scan.nearestHazard,
    dist_nearest_solid := scan.nearestSolid,
    objects := writeObjects sorted }
  ({ mem with cpp_writing := 0 }, f)

/-- The scheduled callback `MyPlayLayer::rl_loop(float dt)`. -/
def rl_loop (fr : Frame) (w : World) : CycleResult :=
  match fr.m_player1, w.pSharedMem with
  | some player, some mem =>
    if mem.reset_command = 1 then
      let mem1 := { mem with reset_command := 0 }
      { world := { pSharedMem := some mem1, fields := { w.fields with m_stuckFrames := 0 } },
        calls := [(HostCall.resetLevel, mem1)],
        spins := 0,
        cpp_writing_stores := [] }
    else
      let cp := handleCheckpoint fr.m_isPracticeMode mem
      let spins := spinFrom fr.py_writing_reads 0
      let snap := writeSnapshot fr player cp.1 w.fields
      let act := applyAction snap.1.action_command snap.2.m_isHolding
      { world := { pSharedMem := some snap.1, fields := { snap.2 with m_isHolding := act.1 } },
        calls := cp.2 ++ act.2.map (fun c => (c, snap.1)),
        spins := spins,
        cpp_writing_stores := [1, 0] }
  | _, _ => { world := w, calls := [], spins := 0, cpp_writing_stores := [] }

/-! ## Vocabulary of the specification -/

/-- The forward offset of an object: `dx = object.min_x - player.max_x`. -/
def offsetX (pRect : CCRect) (g : GameObject) : ℚ :=
  g.objectRect.getMinX - pRect.getMaxX

/-- The vertical offset of an object: `dy = object.mid_y - player.mid_y`. -/
def offsetY (pRect : CCRect) (g : GameObject) : ℚ :=
  g.objectRect.getMidY - pRect.getMidY

/-- An object is classified when it has the hazard type, the solid type, or an
identifier of the portal table; every other object is decoration. -/
def isClassified (g : GameObject) : Bool :=
  decide (g.m_objectType = GameObjectType.Hazard ∨ g.m_objectType = GameObjectType.Solid ∨
    g.m_objectID ∈ portalIds)

/-- An object is retained when it is classified and `-50 ≤ dx ≤ 800`. -/
def isRetained (pRect : CCRect) (g : GameObject) : Bool :=
  isClassified g && decide (-50 ≤ offsetX pRect g ∧ offsetX pRect g ≤ 800)

/-- The retained objects of an object array, in array order. -/
def retainedObjects (pRect : CCRect) (objs : List (Option GameObject)) : List GameObject :=
  (objs.filterMap id).filter (isRetained pRect)

/-- The offsets `dx` of the retained objects of physical type `t` that lie
ahead of the player (`dx > 0`). -/
def forwardDx (t : GameObjectType) (pRect : CCRect) (objs : List (Option GameObject)) : List ℚ :=
  ((retainedObjects pRect objs).filter
    (fun g => decide (g.m_objectType = t ∧ 0 < offsetX pRect g))).map (offsetX pRect)

/-- The value `r` is the least element of `l`, or `9999` when `l` is empty. -/
def IsMinOrSentinel (l : List ℚ) (r : ℚ) : Prop :=
  (l = [] ∧ r = 9999) ∨ (r ∈ l ∧ ∀ x ∈ l, r ≤ x)

/-- The record collected for a retained object. -/
def collect (pRect : CCRect) (g : GameObject) : RLObject :=
  { category := getObjectCategory (some g), rect := g.objectRect,
    dx := offsetX pRect g, dy := offsetY pRect g,
    w := g.objectRect.width, h := g.objectRect.height }

/-- The running minimum kept for one category: the value after the scan is at
most the value before it and at most every candidate, and is one of them. -/
def RunningMin (start : ℚ) (cands : List ℚ) (r : ℚ) : Prop :=
  r ≤ start ∧ (∀ x ∈ cands, r ≤ x) ∧ (r = start ∨ r ∈ cands)

/-! ## Sample inputs -/

/-- A zeroed shared region (the state left by `memset` in `init`), with an
empty slot table. -/
def zeroMem : SharedState :=
  { cpp_writing := 0, py_writing := 0, player_x := 0, player_y := 0, player_vel_x := 0,
    player_vel_y := 0, player_rot := 0, gravity := 0, is_on_ground := 0, is_dead := 0,
    is_terminal := 0, percent := 0, dist_nearest_hazard := 0, dist_nearest_solid := 0,
    player_mode := 0, player_speed := 0, objects := List.replicate 30 ⟨0, 0, 0, 0, 0⟩,
    action_command := 0, reset_command := 0, checkpoint_command := 0 }

/-- The private fields as `init` leaves them. -/
def initFields : Fields :=
  { m_isHolding := false, m_showDebug := true, m_lastX := 0, m_lastPercent := 0,
    m_stuckFrames := 0 }

/-- A player at `x = 100` whose box spans `[85, 115]` horizontally. -/
def samplePlayer : PlayerObject :=
  { position_x := 100, position_y := 105, objectRect := ⟨85, 90, 30, 30⟩, m_isDead := false,
    m_yVelocity := 0, rotation := 0, m_isUpsideDown := false, m_isOnGround := true,
    m_isShip := false, m_playerSpeed := 9 / 10 }

/-- A hazard at `dx = 30`, a solid at `dx = 10`, an entry that is no game
object, a portal beyond the window (`dx = 1885`) and a decoration at `dx = 15`. -/
def sampleObjects : List (Option GameObject) :=
  [some ⟨8, GameObjectType.Hazard, ⟨145, 90, 30, 30⟩⟩,
   some ⟨1, GameObjectType.Solid, ⟨125, 90, 30, 30⟩⟩,
   none,
   some ⟨12, GameObjectType.Other 7, ⟨2000, 90, 30, 30⟩⟩,
   some ⟨5, GameObjectType.Other 7, ⟨130, 90, 30, 30⟩⟩]

/-- A frame of a level of length 1000 with the sample player and objects. -/
def sampleFrame : Frame :=
  { dt := 16 / 1000, m_player1 := some samplePlayer, m_levelLength := 1000,
    m_isPracticeMode := false, m_objects := sampleObjects,
    py_writing_reads := fun _ => 0 }

/-- The zeroed region with the tracker at `last_x = 90`. -/
def sampleWorld : World :=
  { pSharedMem := some zeroMem, fields := { initFields with m_lastX := 90 } }

/-- An object is excluded when `dx < -50` or `dx > 800`, or when it is
decoration (not hazard type, not solid type, identifier not in the portal
table). -/
def isExcluded (pRect : CCRect) (g : GameObject) : Bool :=
  decide (offsetX pRect g < -50 ∨ offsetX pRect g > 800) ||
    decide (g.m_objectType ≠ GameObjectType.Hazard ∧ g.m_objectType ≠ GameObjectType.Solid ∧
      g.m_objectID ∉ portalIds)

/-- The object array with every excluded object removed. -/
def withoutExcluded (pRect : CCRect) (objs : List (Option GameObject)) :
    List (Option GameObject) :=
  objs.filter fun o =>
    match o with
    | none => true
    | some g => !isExcluded pRect g

/-! ## Runs of several cycles -/

/-- What the consumer stores into the command fields between two producer
cycles; `none` leaves a field as it is. -/
structure ConsumerWrite where
  action_command : Option Int
  reset_command : Option Int
  checkpoint_command : Option Int
deriving DecidableEq

/-- The region after the consumer's stores. -/
def ConsumerWrite.store (c : ConsumerWrite) (mem : SharedState) : SharedState :=
  { mem with
    action_command := c.action_command.getD mem.action_command,
    reset_command := c.reset_command.getD mem.reset_command,
    checkpoint_command := c.checkpoint_command.getD mem.checkpoint_command }

/-- The state after the consumer's stores. -/
def consume (c : ConsumerWrite) (w : World) : World :=
  { w with pSharedMem := w.pSharedMem.map c.store }

/-- One step of a run: the consumer's stores, then the host frame the callback
is invoked with. -/
structure Step where
  consumer : ConsumerWrite
  frame : Frame

/-- The results of the successive invocations of the callback along a run. -/
def runCycles : List Step → World → List CycleResult
  | [], _ => []
  | st :: rest, w =>
    (rl_loop st.frame (consume st.consumer w)) ::
      runCycles rest (rl_loop st.frame (consume st.consumer w)).world

/-- A consumer that stores nothing. -/
def noWrite : ConsumerWrite :=
  { action_command := none, reset_command := none, checkpoint_command := none }

/-- The completion percent of a frame (0 without a player). -/
def framePct (fr : Frame) : ℚ :=
  match fr.m_player1 with
  | some p => currentPct p.position_x fr.m_levelLength
  | none => 0

/-- Every frame of the list has a living player whose percent is above 0.5 and
within `1e-4` of the percent of the frame before it (`prev` for the first). -/
def StuckFrames : ℚ → List Frame → Prop
  | _, [] => True
  | prev, fr :: rest =>
    (∃ p, fr.m_player1 = some p ∧ p.m_isDead = false ∧
      |framePct fr - prev| < 1 / 10000 ∧ framePct fr > 1 / 2) ∧
    StuckFrames (framePct fr) rest

/-- The zeroed region with the tracker at the sample frame's percent (10). -/
def stuckWorld : World :=
  { pSharedMem := some zeroMem, fields := { initFields with m_lastX := 100, m_lastPercent := 10 } }

/-- A run of `n` sample frames with a consumer that stores nothing. -/
def stuckSteps (n : Nat) : List Step :=
  List.replicate n { consumer := noWrite, frame := sampleFrame }

/-- The sample frame with the player moved on to `x = 200` (percent 20). -/
def movedFrame : Frame :=
  { sampleFrame with
    m_player1 := some { samplePlayer with position_x := 200, objectRect := ⟨185, 90, 30, 30⟩ } }

/-- The state of a player declared stuck: counter at 31, terminal flag set. -/
def stuckDeadWorld : World :=
  { pSharedMem := some { zeroMem with is_dead := 1, is_terminal := 1, percent := 10 },
    fields := { initFields with m_lastX := 100, m_lastPercent := 10, m_stuckFrames := 31 } }

/-! ## Vocabulary of the action channel -/

/-- The button calls of a cycle (press and release), in program order. -/
def buttonCalls (r : CycleResult) : List HostCall :=
  (r.calls.map Prod.fst).filter
    (fun c => decide (c = HostCall.pushButton ∨ c = HostCall.releaseButton))

/-- The events the specification expects for a sequence of command values: a
press when the value is 1 and the previous one was 0, a release when the value
is 0 and the previous one was 1, nothing otherwise. -/
def expectedEvents : Int → List Int → List (List HostCall)
  | _, [] => []
  | prev, v :: rest =>
    (if v = 1 ∧ prev = 0 then [HostCall.pushButton]
      else if v = 0 ∧ prev = 1 then [HostCall.releaseButton]
      else []) :: expectedEvents v rest

/-- The number of positions at which a sequence of values differs from the
value before it (`prev` for the first). -/
def valueChanges : Int → List Int → Nat
  | _, [] => 0
  | prev, v :: rest => (if v ≠ prev then 1 else 0) + valueChanges v rest

/-- A run that stores the given command values, one per cycle, on sample
frames. -/
def actionSteps (vs : List Int) : List Step :=
  vs.map fun v =>
    { consumer := { noWrite with action_command := some v }, frame := sampleFrame }

/-- The sample world with a pending reset request and a tracker that has seen
the player at `x = 90`, percent 9, for five stuck frames. -/
def resetWorld : World :=
  { pSharedMem := some { zeroMem with reset_command := 1, is_terminal := 1 },
    fields := { initFields with m_lastX := 90, m_lastPercent := 9, m_stuckFrames := 5 } }

/-- The frame the host supplies right after a level reset: the player back at
`x = 0`. -/
def restartFrame : Frame :=
  { sampleFrame with
    m_player1 := some { samplePlayer with position_x := 0, objectRect := ⟨-15, 90, 30, 30⟩ } }

/-- The sample world with a checkpoint request pending. -/
def checkpointWorld : World :=
  { pSharedMem := some { zeroMem with checkpoint_command := 1 },
    fields := { initFields with m_lastX := 90 } }

/-! ## Vocabulary of the snapshot protocol -/

/-- The Snapshot part of the region: the fourteen player and reward fields and
the slot table. -/
structure Snapshot where
  player_x : ℚ
  player_y : ℚ
  player_vel_x : ℚ
  player_vel_y : ℚ
  player_rot : ℚ
  gravity : Int
  is_on_ground : Int
  is_dead : Int
  is_terminal : Int
  percent : ℚ
  dist_nearest_hazard : ℚ
  dist_nearest_solid : ℚ
  player_mode : Int
  player_speed : ℚ
  objects : List ObjectData
deriving DecidableEq

/-- The Snapshot held by a region. -/
def snapshotOf (m : SharedState) : Snapshot :=
  { player_x := m.player_x, player_y := m.player_y, player_vel_x := m.player_vel_x,
    player_vel_y := m.player_vel_y, player_rot := m.player_rot, gravity := m.gravity,
    is_on_ground := m.is_on_ground, is_dead := m.is_dead, is_terminal := m.is_terminal,
    percent := m.percent, dist_nearest_hazard := m.dist_nearest_hazard,
    dist_nearest_solid := m.dist_nearest_solid, player_mode := m.player_mode,
    player_speed := m.player_speed, objects := m.objects }

/-- A region holding an older snapshot: every Snapshot field differs from the
zeroed region, the flags and commands are the same. -/
def staleMem : SharedState :=
  { zeroMem with
    player_x := 77, player_y := 78, player_vel_x := 79, player_vel_y := 80, player_rot := 81,
    gravity := -1, is_on_ground := 1, is_dead := 1, is_terminal := 1, percent := 82,
    dist_nearest_hazard := 83, dist_nearest_solid := 84, player_mode := 1, player_speed := 85,
    objects := List.replicate 30 ⟨1, 2, 3, 4, 5⟩ }

/-- The stale region with a reset request and a checkpoint request pending. -/
def staleResetMem : SharedState :=
  { staleMem with reset_command := 1, checkpoint_command := 1, action_command := 0 }

/-- The stale region with a reset request pending, holding a press, and the
tracker at `last_x = 90`, `last_percent = 9`, counter 5. -/
def staleResetWorld : World :=
  { pSharedMem := some staleResetMem,
    fields :=
      { m_isHolding := true, m_showDebug := true, m_lastX := 90, m_lastPercent := 9,
        m_stuckFrames := 5 } }

/-- The sample world holding the button, with the command value `cmd` in the
region. -/
def heldWorld (cmd : Int) : World :=
  { pSharedMem := some { zeroMem with action_command := cmd },
    fields := { initFields with m_isHolding := true, m_lastX := 90 } }

/-! ## Vocabulary of the slot table -/

/-- The order on objects by forward offset. -/
def objLess (pRect : CCRect) (a b : GameObject) : Bool :=
  decide (offsetX pRect a < offsetX pRect b)

/-- The retained objects ordered by ascending `dx`. -/
def sortedRetained (pRect : CCRect) (objs : List (Option GameObject)) : List GameObject :=
  stdSort (objLess pRect) (retainedObjects pRect objs)

/-- The slot that carries an object: its `dx`, `dy`, width, height and
category code. -/
def slotFor (pRect : CCRect) (g : GameObject) : ObjectData :=
  { dx := offsetX pRect g, dy := offsetY pRect g, w := g.objectRect.width,
    h := g.objectRect.height, type := categoryToInt (getObjectCategory (some g)) }

/-- The positive offsets of the slots of category `code`. -/
def slotForwardDx (code : Int) (slots : List ObjectData) : List ℚ :=
  (slots.filter (fun s => decide (s.type = code ∧ 0 < s.dx))).map (fun s => s.dx)

/-- Agreement of a nearest distance with the slots of category `code`: it is
the `offset_x` of the first slot of that category with `offset_x > 0` when
there is one, and otherwise it is 9999 or at least the `offset_x` of slot 29. -/
def AgreesWithSlots (code : Int) (slots : List ObjectData) (dist : ℚ) : Prop :=
  (∀ (i : Nat) (s : ObjectData), slots[i]? = some s → s.type = code → 0 < s.dx →
    (∀ (j : Nat) (s' : ObjectData), j < i → slots[j]? = some s' →
      ¬ (s'.type = code ∧ 0 < s'.dx)) →
    dist = s.dx) ∧
  ((∀ (i : Nat) (s : ObjectData), slots[i]? = some s → ¬ (s.type = code ∧ 0 < s.dx)) →
    dist = 9999 ∨ ∃ s29, slots[29]? = some s29 ∧ s29.dx ≤ dist)

/-- Thirty solids at `dx = 1, ..., 30` followed by a hazard at `dx = 500`. -/
def crowdedObjects : List (Option GameObject) :=
  (List.range 30).map
      (fun i => some ⟨1, GameObjectType.Solid, ⟨116 + (i : ℚ), 90, 30, 30⟩⟩) ++
    [some ⟨8, GameObjectType.Hazard, ⟨615, 90, 30, 30⟩⟩]

end GDRL

/-! ## Theorems -/

namespace GDRL

theorem getObjectCategory_hazard (g : GameObject)
    (h : g.m_objectType = GameObjectType.Hazard) :
    getObjectCategory (some g) = "spike" := by
  simp [getObjectCategory, h]

theorem getObjectCategory_solid (g : GameObject)
    (h : g.m_objectType = GameObjectType.Solid) :
    getObjectCategory (some g) = "solid_block" := by
  simp [getObjectCategory, h]

theorem categoryToInt_portal_of_id (g : GameObject)
    (hH : g.m_objectType ≠ GameObjectType.Hazard)
    (hS : g.m_objectType ≠ GameObjectType.Solid)
    (hid : g.m_objectID ∈ portalIds) :
    categoryToInt (getObjectCategory (some g)) = 5 := by
  simp only [portalIds, List.mem_cons, List.mem_singleton, List.not_mem_nil, or_false] at hid
  rcases hid with h | h | h | h | h | h | h | h <;>
    simp [getObjectCategory, hH, hS, h] <;> decide

/-- C4: an object of physical type Hazard resolves to category code 1 and one
of physical type Solid to 2, whatever its numeric identifier; an identifier of
the portal table yields 5 exactly when the physical type is neither Hazard nor
Solid. -/
theorem C4_category_type_precedence (g : GameObject) :
    (g.m_objectType = GameObjectType.Hazard →
        categoryToInt (getObjectCategory (some g)) = 1) ∧
    (g.m_objectType = GameObjectType.Solid →
        categoryToInt (getObjectCategory (some g)) = 2) ∧
    (g.m_objectID ∈ portalIds →
        (categoryToInt (getObjectCategory (some g)) = 5 ↔
          (g.m_objectType ≠ GameObjectType.Hazard ∧
            g.m_objectType ≠ GameObjectType.Solid))) := by
  refine ⟨?_, ?_, ?_⟩
  · intro h
    rw [getObjectCategory_hazard g h]; decide
  · intro h
    rw [getObjectCategory_solid g h]; decide
  · intro hid
    constructor
    · intro h5
      constructor
      · intro h
        rw [getObjectCategory_hazard g h] at h5
        revert h5; decide
      · intro h
        rw [getObjectCategory_solid g h] at h5
        revert h5; decide
    · rintro ⟨hH, hS⟩
      exact categoryToInt_portal_of_id g hH hS hid

/-! ### Classification lemmas -/

theorem category_of_other (g : GameObject)
    (hH : g.m_objectType ≠ GameObjectType.Hazard)
    (hS : g.m_objectType ≠ GameObjectType.Solid) :
    getObjectCategory (some g) ∈
      ["cube_portal", "ship_portal", "ball_portal", "ufo_portal", "wave_portal",
        "spider_portal", "mini_portal", "normal_portal", "decoration"] := by
  unfold getObjectCategory
  simp only [if_neg hH, if_neg hS]
  split_ifs <;> decide

theorem category_spike_iff (g : GameObject) :
    getObjectCategory (some g) = "spike" ↔ g.m_objectType = GameObjectType.Hazard := by
  constructor
  · intro h
    by_contra hH
    by_cases hS : g.m_objectType = GameObjectType.Solid
    · rw [getObjectCategory_solid g hS] at h
      exact absurd h (by decide)
    · have hm := category_of_other g hH hS
      rw [h] at hm
      exact absurd hm (by decide)
  · exact getObjectCategory_hazard g

theorem category_solid_iff (g : GameObject) :
    getObjectCategory (some g) = "solid_block" ↔ g.m_objectType = GameObjectType.Solid := by
  constructor
  · intro h
    by_contra hS
    by_cases hH : g.m_objectType = GameObjectType.Hazard
    · rw [getObjectCategory_hazard g hH] at h
      exact absurd h (by decide)
    · have hm := category_of_other g hH hS
      rw [h] at hm
      exact absurd hm (by decide)
  · exact getObjectCategory_solid g

theorem category_excluded_iff (g : GameObject) :
    (getObjectCategory (some g) = "decoration" ∨ getObjectCategory (some g) = "unknown") ↔
      isClassified g = false := by
  by_cases hH : g.m_objectType = GameObjectType.Hazard
  · have h1 : isClassified g = true := by simp [isClassified, hH]
    rw [getObjectCategory_hazard g hH, h1]
    decide
  · by_cases hS : g.m_objectType = GameObjectType.Solid
    · have h1 : isClassified g = true := by simp [isClassified, hS]
      rw [getObjectCategory_solid g hS, h1]
      decide
    · by_cases hid : g.m_objectID ∈ portalIds
      · have h1 : isClassified g = true := by simp [isClassified, hid]
        have h5 := categoryToInt_portal_of_id g hH hS hid
        rw [h1]
        constructor
        · rintro (h | h) <;> rw [h] at h5 <;> exact absurd h5 (by decide)
        · intro h; exact absurd h (by decide)
      · have h1 : isClassified g = false := by simp [isClassified, hH, hS, hid]
        simp only [portalIds, List.mem_cons, List.mem_singleton, List.not_mem_nil, or_false,
          not_or] at hid
        obtain ⟨i1, i2, i3, i4, i5, i6, i7, i8⟩ := hid
        have hd : getObjectCategory (some g) = "decoration" := by
          unfold getObjectCategory
          simp only [if_neg hH, if_neg hS, if_neg i1, if_neg i2, if_neg i3,
            if_neg i4, if_neg i5, if_neg i6, if_neg i7, if_neg i8]
        rw [hd, h1]
        decide

/-! ### The object scan -/

theorem scanStep_none (pRect : CCRect) (s : ScanState) : scanStep pRect s none = s := rfl

theorem scanStep_not_retained (pRect : CCRect) (s : ScanState) (g : GameObject)
    (h : isRetained pRect g = false) : scanStep pRect s (some g) = s := by
  simp only [scanStep]
  by_cases hw : g.objectRect.getMinX - pRect.getMaxX < -50 ∨
      g.objectRect.getMinX - pRect.getMaxX > 800
  · simp [hw]
  · rw [if_neg hw]
    have hc : isClassified g = false := by
      simp only [isRetained, offsetX, Bool.and_eq_false_iff, decide_eq_false_iff_not] at h
      rcases h with h | h
      · exact h
      · exfalso
        apply h
        push_neg at hw
        exact ⟨hw.1, hw.2⟩
    rw [if_pos ((category_excluded_iff g).2 hc)]

theorem scanStep_retained (pRect : CCRect) (s : ScanState) (g : GameObject)
    (h : isRetained pRect g = true) :
    scanStep pRect s (some g) =
      { nearbyObjects := s.nearbyObjects ++ [collect pRect g],
        nearestHazard :=
          if g.m_objectType = GameObjectType.Hazard ∧ 0 < offsetX pRect g ∧
              offsetX pRect g < s.nearestHazard then offsetX pRect g else s.nearestHazard,
        nearestSolid :=
          if g.m_objectType = GameObjectType.Solid ∧ 0 < offsetX pRect g ∧
              offsetX pRect g < s.nearestSolid then offsetX pRect g else s.nearestSolid } := by
  simp only [isRetained, Bool.and_eq_true, decide_eq_true_eq] at h
  obtain ⟨hc, hlo, hhi⟩ := h
  have hw : ¬ (g.objectRect.getMinX - pRect.getMaxX < -50 ∨
      g.objectRect.getMinX - pRect.getMaxX > 800) := by
    simp only [offsetX] at hlo hhi
    push_neg
    exact ⟨hlo, hhi⟩
  have hd : ¬ (getObjectCategory (some g) = "decoration" ∨
      getObjectCategory (some g) = "unknown") := by
    rw [category_excluded_iff]; simp [hc]
  simp only [scanStep, if_neg hw, if_neg hd, category_spike_iff, category_solid_iff,
    collect, offsetX, offsetY, gt_iff_lt]
  congr 1 <;> (congr 1; apply propext; tauto)

theorem retainedObjects_nil (pRect : CCRect) : retainedObjects pRect [] = [] := rfl

theorem retainedObjects_none (pRect : CCRect) (objs : List (Option GameObject)) :
    retainedObjects pRect (none :: objs) = retainedObjects pRect objs := by
  simp [retainedObjects]

theorem retainedObjects_drop (pRect : CCRect) (g : GameObject)
    (objs : List (Option GameObject)) (h : isRetained pRect g = false) :
    retainedObjects pRect (some g :: objs) = retainedObjects pRect objs := by
  simp [retainedObjects, h]

theorem retainedObjects_keep (pRect : CCRect) (g : GameObject)
    (objs : List (Option GameObject)) (h : isRetained pRect g = true) :
    retainedObjects pRect (some g :: objs) = g :: retainedObjects pRect objs := by
  simp [retainedObjects, h]

theorem scan_nearbyObjects_from (pRect : CCRect) (objs : List (Option GameObject)) :
    ∀ s : ScanState, (objs.foldl (scanStep pRect) s).nearbyObjects =
      s.nearbyObjects ++ (retainedObjects pRect objs).map (collect pRect) := by
  induction objs with
  | nil => intro s; simp [retainedObjects_nil]
  | cons o rest ih =>
    intro s
    rw [List.foldl_cons, ih]
    cases o with
    | none => rw [scanStep_none, retainedObjects_none]
    | some g =>
      cases h : isRetained pRect g with
      | false => rw [scanStep_not_retained pRect s g h, retainedObjects_drop pRect g rest h]
      | true =>
        rw [scanStep_retained pRect s g h, retainedObjects_keep pRect g rest h]
        simp

theorem scanObjects_nearbyObjects (pRect : CCRect) (objs : List (Option GameObject)) :
    (scanObjects pRect objs).nearbyObjects = (retainedObjects pRect objs).map (collect pRect) := by
  simp [scanObjects, scan_nearbyObjects_from]

theorem mem_forwardDx (t : GameObjectType) (pRect : CCRect) (objs : List (Option GameObject))
    (x : ℚ) (h : x ∈ forwardDx t pRect objs) : 0 < x ∧ x ≤ 800 := by
  simp only [forwardDx, retainedObjects, List.mem_map, List.mem_filter, decide_eq_true_eq] at h
  obtain ⟨g, ⟨⟨_, hr⟩, _, hpos⟩, rfl⟩ := h
  simp only [isRetained, Bool.and_eq_true, decide_eq_true_eq] at hr
  exact ⟨hpos, hr.2.2⟩

theorem forwardDx_none (t : GameObjectType) (pRect : CCRect) (objs : List (Option GameObject)) :
    forwardDx t pRect (none :: objs) = forwardDx t pRect objs := by
  simp [forwardDx, retainedObjects_none]

theorem forwardDx_drop (t : GameObjectType) (pRect : CCRect) (g : GameObject)
    (objs : List (Option GameObject)) (h : isRetained pRect g = false) :
    forwardDx t pRect (some g :: objs) = forwardDx t pRect objs := by
  simp [forwardDx, retainedObjects_drop pRect g objs h]

theorem forwardDx_keep (t : GameObjectType) (pRect : CCRect) (g : GameObject)
    (objs : List (Option GameObject)) (h : isRetained pRect g = true) :
    forwardDx t pRect (some g :: objs) =
      (if g.m_objectType = t ∧ 0 < offsetX pRect g then [offsetX pRect g] else []) ++
        forwardDx t pRect objs := by
  simp only [forwardDx, retainedObjects_keep pRect g objs h, List.filter_cons]
  split_ifs with h1 h2 h2
  · simp
  · simp only [decide_eq_true_eq] at h1; exact absurd h1 h2
  · simp only [decide_eq_true_eq] at h1; exact absurd h2 h1
  · simp

theorem runningMin_skip {start r : ℚ} {cands : List ℚ} (h : RunningMin start cands r) :
    RunningMin start ([] ++ cands) r := by
  simpa using h

theorem runningMin_step {start d r : ℚ} {cands : List ℚ}
    (h : RunningMin (if d < start then d else start) cands r) :
    RunningMin start (d :: cands) r := by
  obtain ⟨h1, h2, h3⟩ := h
  by_cases hd : d < start
  · rw [if_pos hd] at h1 h3
    refine ⟨le_trans h1 (le_of_lt hd), ?_, ?_⟩
    · intro x hx
      rcases List.mem_cons.1 hx with rfl | hx
      · exact h1
      · exact h2 x hx
    · rcases h3 with h3 | h3
      · right; rw [h3]; exact List.mem_cons_self _ _
      · right; exact List.mem_cons_of_mem _ h3
  · rw [if_neg hd] at h1 h3
    refine ⟨h1, ?_, ?_⟩
    · intro x hx
      rcases List.mem_cons.1 hx with rfl | hx
      · exact le_trans h1 (not_lt.1 hd)
      · exact h2 x hx
    · rcases h3 with h3 | h3
      · left; exact h3
      · right; exact List.mem_cons_of_mem _ h3

theorem scan_nearestHazard_from (pRect : CCRect) (objs : List (Option GameObject)) :
    ∀ s : ScanState, RunningMin s.nearestHazard
      (forwardDx GameObjectType.Hazard pRect objs)
      (objs.foldl (scanStep pRect) s).nearestHazard := by
  induction objs with
  | nil => intro s; simp [RunningMin, forwardDx, retainedObjects]
  | cons o rest ih =>
    intro s
    rw [List.foldl_cons]
    cases o with
    | none => rw [scanStep_none, forwardDx_none]; exact ih s
    | some g =>
      cases h : isRetained pRect g with
      | false =>
        rw [scanStep_not_retained pRect s g h, forwardDx_drop _ pRect g rest h]; exact ih s
      | true =>
        have hn : (scanStep pRect s (some g)).nearestHazard =
            if g.m_objectType = GameObjectType.Hazard ∧ 0 < offsetX pRect g ∧
              offsetX pRect g < s.nearestHazard then offsetX pRect g else s.nearestHazard := by
          rw [scanStep_retained pRect s g h]
        have hs := ih (scanStep pRect s (some g))
        rw [hn] at hs
        rw [forwardDx_keep _ pRect g rest h]
        by_cases hc : g.m_objectType = GameObjectType.Hazard ∧ 0 < offsetX pRect g
        · rw [if_pos hc, List.singleton_append]
          apply runningMin_step
          by_cases hd : offsetX pRect g < s.nearestHazard
          · rw [if_pos hd]; rw [if_pos ⟨hc.1, hc.2, hd⟩] at hs; exact hs
          · rw [if_neg hd]; rw [if_neg (fun hh => hd hh.2.2)] at hs; exact hs
        · rw [if_neg hc]
          rw [if_neg (fun hh => hc ⟨hh.1, hh.2.1⟩)] at hs
          exact runningMin_skip hs

theorem scan_nearestSolid_from (pRect : CCRect) (objs : List (Option GameObject)) :
    ∀ s : ScanState, RunningMin s.nearestSolid
      (forwardDx GameObjectType.Solid pRect objs)
      (objs.foldl (scanStep pRect) s).nearestSolid := by
  induction objs with
  | nil => intro s; simp [RunningMin, forwardDx, retainedObjects]
  | cons o rest ih =>
    intro s
    rw [List.foldl_cons]
    cases o with
    | none => rw [scanStep_none, forwardDx_none]; exact ih s
    | some g =>
      cases h : isRetained pRect g with
      | false =>
        rw [scanStep_not_retained pRect s g h, forwardDx_drop _ pRect g rest h]; exact ih s
      | true =>
        have hn : (scanStep pRect s (some g)).nearestSolid =
            if g.m_objectType = GameObjectType.Solid ∧ 0 < offsetX pRect g ∧
              offsetX pRect g < s.nearestSolid then offsetX pRect g else s.nearestSolid := by
          rw [scanStep_retained pRect s g h]
        have hs := ih (scanStep pRect s (some g))
        rw [hn] at hs
        rw [forwardDx_keep _ pRect g rest h]
        by_cases hc : g.m_objectType = GameObjectType.Solid ∧ 0 < offsetX pRect g
        · rw [if_pos hc, List.singleton_append]
          apply runningMin_step
          by_cases hd : offsetX pRect g < s.nearestSolid
          · rw [if_pos hd]; rw [if_pos ⟨hc.1, hc.2, hd⟩] at hs; exact hs
          · rw [if_neg hd]; rw [if_neg (fun hh => hd hh.2.2)] at hs; exact hs
        · rw [if_neg hc]
          rw [if_neg (fun hh => hc ⟨hh.1, hh.2.1⟩)] at hs
          exact runningMin_skip hs

theorem isMinOrSentinel_of_runningMin (t : GameObjectType) (pRect : CCRect)
    (objs : List (Option GameObject)) (r : ℚ)
    (h : RunningMin 9999 (forwardDx t pRect objs) r) :
    IsMinOrSentinel (forwardDx t pRect objs) r := by
  obtain ⟨_, h2, h3⟩ := h
  rcases h3 with h3 | h3
  · cases hl : forwardDx t pRect objs with
    | nil => left; exact ⟨rfl, h3⟩
    | cons x xs =>
      exfalso
      have hx : x ∈ forwardDx t pRect objs := by rw [hl]; exact List.mem_cons_self _ _
      have h800 := (mem_forwardDx t pRect objs x hx).2
      have := h2 x hx
      rw [h3] at this
      linarith
  · right; exact ⟨h3, h2⟩

theorem scanObjects_nearestHazard (pRect : CCRect) (objs : List (Option GameObject)) :
    IsMinOrSentinel (forwardDx GameObjectType.Hazard pRect objs)
      (scanObjects pRect objs).nearestHazard :=
  isMinOrSentinel_of_runningMin _ pRect objs _ (scan_nearestHazard_from pRect objs _)

theorem scanObjects_nearestSolid (pRect : CCRect) (objs : List (Option GameObject)) :
    IsMinOrSentinel (forwardDx GameObjectType.Solid pRect objs)
      (scanObjects pRect objs).nearestSolid :=
  isMinOrSentinel_of_runningMin _ pRect objs _ (scan_nearestSolid_from pRect objs _)

/-! ### The callback on a cycle that writes the snapshot -/

theorem rl_loop_write (fr : Frame) (w : World) (player : PlayerObject) (mem : SharedState)
    (hp : fr.m_player1 = some player) (hm : w.pSharedMem = some mem)
    (hr : mem.reset_command ≠ 1) :
    rl_loop fr w =
      { world :=
          { pSharedMem :=
              some (writeSnapshot fr player (handleCheckpoint fr.m_isPracticeMode mem).1 w.fields).1,
            fields :=
              { (writeSnapshot fr player (handleCheckpoint fr.m_isPracticeMode mem).1 w.fields).2 with
                m_isHolding :=
                  (applyAction
                    (writeSnapshot fr player (handleCheckpoint fr.m_isPracticeMode mem).1
                      w.fields).1.action_command
                    (writeSnapshot fr player (handleCheckpoint fr.m_isPracticeMode mem).1
                      w.fields).2.m_isHolding).1 } },
        calls :=
          (handleCheckpoint fr.m_isPracticeMode mem).2 ++
            (applyAction
              (writeSnapshot fr player (handleCheckpoint fr.m_isPracticeMode mem).1
                w.fields).1.action_command
              (writeSnapshot fr player (handleCheckpoint fr.m_isPracticeMode mem).1
                w.fields).2.m_isHolding).2.map
              (fun c =>
                (c, (writeSnapshot fr player (handleCheckpoint fr.m_isPracticeMode mem).1
                  w.fields).1)),
        spins := spinFrom fr.py_writing_reads 0,
        cpp_writing_stores := [1, 0] } := by
  simp only [rl_loop, hp, hm, if_neg hr]

theorem rl_loop_mem (fr : Frame) (w : World) (player : PlayerObject) (mem : SharedState)
    (hp : fr.m_player1 = some player) (hm : w.pSharedMem = some mem)
    (hr : mem.reset_command ≠ 1) :
    (rl_loop fr w).world.pSharedMem =
      some (writeSnapshot fr player (handleCheckpoint fr.m_isPracticeMode mem).1 w.fields).1 := by
  rw [rl_loop_write fr w player mem hp hm hr]

theorem writeSnapshot_hazard (fr : Frame) (player : PlayerObject) (mem : SharedState)
    (f : Fields) :
    (writeSnapshot fr player mem f).1.dist_nearest_hazard =
      (scanObjects player.objectRect fr.m_objects).nearestHazard := rfl

theorem writeSnapshot_solid (fr : Frame) (player : PlayerObject) (mem : SharedState)
    (f : Fields) :
    (writeSnapshot fr player mem f).1.dist_nearest_solid =
      (scanObjects player.objectRect fr.m_objects).nearestSolid := rfl

theorem writeSnapshot_objects (fr : Frame) (player : PlayerObject) (mem : SharedState)
    (f : Fields) :
    (writeSnapshot fr player mem f).1.objects =
      writeObjects (stdSort dxLess (scanObjects player.objectRect fr.m_objects).nearbyObjects) :=
  rfl

/-- C1: in a cycle that writes the snapshot, `dist_nearest_hazard` is the least
`dx` among the retained hazards ahead of the player (`dx > 0`), and exactly
9999 when there is none; likewise `dist_nearest_solid` for the solids. -/
theorem C1_nearest_distances (fr : Frame) (w : World) (player : PlayerObject)
    (mem : SharedState) (hp : fr.m_player1 = some player) (hm : w.pSharedMem = some mem)
    (hr : mem.reset_command ≠ 1) :
    ∃ out, (rl_loop fr w).world.pSharedMem = some out ∧
      IsMinOrSentinel (forwardDx GameObjectType.Hazard player.objectRect fr.m_objects)
        out.dist_nearest_hazard ∧
      IsMinOrSentinel (forwardDx GameObjectType.Solid player.objectRect fr.m_objects)
        out.dist_nearest_solid := by
  refine ⟨_, rl_loop_mem fr w player mem hp hm hr, ?_, ?_⟩
  · rw [writeSnapshot_hazard]
    exact scanObjects_nearestHazard _ _
  · rw [writeSnapshot_solid]
    exact scanObjects_nearestSolid _ _

/-- C1 on the sample frame: hazard at 30 and solid at 10 give the distances 30
and 10, and an empty object array gives 9999 twice. -/
theorem C1_nearest_distances_witness :
    (sampleFrame.m_player1 = some samplePlayer ∧ sampleWorld.pSharedMem = some zeroMem ∧
      zeroMem.reset_command ≠ 1) ∧
    (∃ out, (rl_loop sampleFrame sampleWorld).world.pSharedMem = some out ∧
      IsMinOrSentinel (forwardDx GameObjectType.Hazard samplePlayer.objectRect
        sampleFrame.m_objects) out.dist_nearest_hazard ∧
      IsMinOrSentinel (forwardDx GameObjectType.Solid samplePlayer.objectRect
        sampleFrame.m_objects) out.dist_nearest_solid) ∧
    (rl_loop sampleFrame sampleWorld).world.pSharedMem.map
        (fun m => (m.dist_nearest_hazard, m.dist_nearest_solid)) = some (30, 10) ∧
    (rl_loop { sampleFrame with m_objects := [] } sampleWorld).world.pSharedMem.map
        (fun m => (m.dist_nearest_hazard, m.dist_nearest_solid)) = some (9999, 9999) :=
  ⟨⟨rfl, rfl, by decide⟩,
    C1_nearest_distances sampleFrame sampleWorld samplePlayer zeroMem rfl rfl (by decide),
    by decide!, by decide!⟩

/-! ### Sorting and the slot table -/

theorem insertOrdered_perm {α : Type} (less : α → α → Bool) (x : α) (l : List α) :
    (insertOrdered less x l).Perm (x :: l) := by
  induction l with
  | nil => exact List.Perm.refl _
  | cons y ys ih =>
    simp only [insertOrdered]
    split_ifs
    · exact (List.Perm.cons y ih).trans (List.Perm.swap x y ys)
    · exact List.Perm.refl _

theorem stdSort_perm {α : Type} (less : α → α → Bool) (l : List α) :
    (stdSort less l).Perm l := by
  induction l with
  | nil => exact List.Perm.refl _
  | cons x xs ih =>
    simp only [stdSort]
    exact (insertOrdered_perm less x _).trans (List.Perm.cons x ih)

theorem stdSort_length {α : Type} (less : α → α → Bool) (l : List α) :
    (stdSort less l).length = l.length :=
  (stdSort_perm less l).length_eq

theorem insertOrdered_dx_pairwise (x : RLObject) (l : List RLObject)
    (h : l.Pairwise (fun a b => a.dx ≤ b.dx)) :
    (insertOrdered dxLess x l).Pairwise (fun a b => a.dx ≤ b.dx) := by
  induction l with
  | nil => simp [insertOrdered]
  | cons y ys ih =>
    rw [List.pairwise_cons] at h
    simp only [insertOrdered]
    by_cases hlt : dxLess y x = true
    · rw [if_pos hlt, List.pairwise_cons]
      refine ⟨?_, ih h.2⟩
      intro z hz
      rcases List.mem_cons.1 ((insertOrdered_perm dxLess x ys).mem_iff.1 hz) with rfl | hz
      · simp only [dxLess, decide_eq_true_eq] at hlt
        exact le_of_lt hlt
      · exact h.1 z hz
    · rw [if_neg hlt]
      simp only [dxLess, decide_eq_true_eq, not_lt] at hlt
      rw [List.pairwise_cons]
      refine ⟨?_, List.pairwise_cons.2 h⟩
      intro z hz
      rcases List.mem_cons.1 hz with rfl | hz
      · exact hlt
      · exact le_trans hlt (h.1 z hz)

theorem stdSort_dx_pairwise (l : List RLObject) :
    (stdSort dxLess l).Pairwise (fun a b => a.dx ≤ b.dx) := by
  induction l with
  | nil => simp [stdSort]
  | cons x xs ih =>
    simp only [stdSort]
    exact insertOrdered_dx_pairwise x _ ih

theorem stdSort_dx_le (l : List RLObject) (i j : Nat) (hij : i ≤ j)
    (hj : j < (stdSort dxLess l).length) :
    ((stdSort dxLess l).get ⟨i, lt_of_le_of_lt hij hj⟩).dx ≤
      ((stdSort dxLess l).get ⟨j, hj⟩).dx := by
  rcases Nat.eq_or_lt_of_le hij with rfl | hlt
  · exact le_refl _
  · exact List.pairwise_iff_get.1 (stdSort_dx_pairwise l) ⟨i, _⟩ ⟨j, hj⟩ hlt

theorem writeObjects_length (nearby : List RLObject) :
    (writeObjects nearby).length = 30 := by
  simp [writeObjects, MAX_OBJECTS]

theorem writeObjects_populated (nearby : List RLObject) (i : Nat) (h : i < nearby.length)
    (h30 : i < 30) :
    (writeObjects nearby)[i]? = some (slotOf (nearby.get ⟨i, h⟩)) := by
  simp [writeObjects, MAX_OBJECTS, List.getElem?_range h30, dif_pos h]

theorem writeObjects_padding (nearby : List RLObject) (i : Nat) (h : nearby.length ≤ i)
    (h30 : i < 30) :
    (writeObjects nearby)[i]? = some paddingSlot := by
  simp [writeObjects, MAX_OBJECTS, List.getElem?_range h30, dif_neg (not_lt.2 h)]

theorem sorted_scan_length (pRect : CCRect) (objs : List (Option GameObject)) :
    (stdSort dxLess (scanObjects pRect objs).nearbyObjects).length =
      (retainedObjects pRect objs).length := by
  rw [stdSort_length, scanObjects_nearbyObjects, List.length_map]

/-- C2: with `k = min(number of retained objects, 30)`, after a cycle that
writes the snapshot the slots `0..k-1` have non-decreasing `offset_x` and every
slot `k..29` is exactly the sentinel tuple `(9999, 0, 0, 0, -1)`. -/
theorem C2_slots_sorted_and_padded (fr : Frame) (w : World) (player : PlayerObject)
    (mem : SharedState) (hp : fr.m_player1 = some player) (hm : w.pSharedMem = some mem)
    (hr : mem.reset_command ≠ 1) :
    ∃ out, (rl_loop fr w).world.pSharedMem = some out ∧
      out.objects.length = 30 ∧
      (∀ i j a b, i ≤ j →
        j < min (retainedObjects player.objectRect fr.m_objects).length 30 →
        out.objects[i]? = some a → out.objects[j]? = some b → a.dx ≤ b.dx) ∧
      (∀ i, min (retainedObjects player.objectRect fr.m_objects).length 30 ≤ i → i < 30 →
        out.objects[i]? = some { dx := 9999, dy := 0, w := 0, h := 0, type := -1 }) := by
  refine ⟨_, rl_loop_mem fr w player mem hp hm hr, ?_, ?_, ?_⟩
  · rw [writeSnapshot_objects]; exact writeObjects_length _
  · intro i j a b hij hj ha hb
    rw [writeSnapshot_objects] at ha hb
    have hlen := sorted_scan_length player.objectRect fr.m_objects
    have hj1 : j < (stdSort dxLess
        (scanObjects player.objectRect fr.m_objects).nearbyObjects).length := by
      rw [hlen]; exact lt_of_lt_of_le hj (min_le_left _ _)
    have hj30 : j < 30 := lt_of_lt_of_le hj (min_le_right _ _)
    rw [writeObjects_populated _ i (lt_of_le_of_lt hij hj1) (lt_of_le_of_lt hij hj30)] at ha
    rw [writeObjects_populated _ j hj1 hj30] at hb
    cases ha
    cases hb
    exact stdSort_dx_le _ i j hij hj1
  · intro i hk h30
    rw [writeSnapshot_objects]
    have hlen := sorted_scan_length player.objectRect fr.m_objects
    have hge : (stdSort dxLess
        (scanObjects player.objectRect fr.m_objects).nearbyObjects).length ≤ i := by
      rw [hlen]
      rcases min_le_iff.1 hk with h | h
      · exact h
      · omega
    exact writeObjects_padding _ i hge h30

/-- C2 on the sample frame: two retained objects, so slots 0 and 1 are the
solid at 10 and the hazard at 30 and slots 2..29 are the sentinel tuple. -/
theorem C2_slots_sorted_and_padded_witness :
    (sampleFrame.m_player1 = some samplePlayer ∧ sampleWorld.pSharedMem = some zeroMem ∧
      zeroMem.reset_command ≠ 1) ∧
    (∃ out, (rl_loop sampleFrame sampleWorld).world.pSharedMem = some out ∧
      out.objects.length = 30 ∧
      (∀ i j a b, i ≤ j →
        j < min (retainedObjects samplePlayer.objectRect sampleFrame.m_objects).length 30 →
        out.objects[i]? = some a → out.objects[j]? = some b → a.dx ≤ b.dx) ∧
      (∀ i, min (retainedObjects samplePlayer.objectRect sampleFrame.m_objects).length 30 ≤ i →
        i < 30 →
        out.objects[i]? = some { dx := 9999, dy := 0, w := 0, h := 0, type := -1 })) ∧
    (retainedObjects samplePlayer.objectRect sampleFrame.m_objects).length = 2 ∧
    (rl_loop sampleFrame sampleWorld).world.pSharedMem.map (fun m => m.objects) =
      some ([⟨10, 0, 30, 30, 2⟩, ⟨30, 0, 30, 30, 1⟩] ++
        List.replicate 28 ⟨9999, 0, 0, 0, -1⟩) :=
  ⟨⟨rfl, rfl, by decide⟩,
    C2_slots_sorted_and_padded sampleFrame sampleWorld samplePlayer zeroMem rfl rfl (by decide),
    by decide!, by decide!⟩

/-! ### Excluded objects -/

theorem isRetained_of_isExcluded (pRect : CCRect) (g : GameObject)
    (h : isExcluded pRect g = true) : isRetained pRect g = false := by
  simp only [isExcluded, Bool.or_eq_true, decide_eq_true_eq] at h
  simp only [isRetained, isClassified, Bool.and_eq_false_iff, decide_eq_false_iff_not]
  rcases h with h | h
  · right
    rintro ⟨h1, h2⟩
    rcases h with h | h <;> linarith
  · left
    rintro (h1 | h1 | h1)
    · exact h.1 h1
    · exact h.2.1 h1
    · exact h.2.2 h1

theorem scan_withoutExcluded_from (pRect : CCRect) (objs : List (Option GameObject)) :
    ∀ s : ScanState, (withoutExcluded pRect objs).foldl (scanStep pRect) s =
      objs.foldl (scanStep pRect) s := by
  induction objs with
  | nil => intro s; rfl
  | cons o rest ih =>
    intro s
    cases o with
    | none =>
      have : withoutExcluded pRect (none :: rest) = none :: withoutExcluded pRect rest := by
        simp [withoutExcluded]
      rw [this, List.foldl_cons, List.foldl_cons, ih]
    | some g =>
      cases h : isExcluded pRect g with
      | true =>
        have : withoutExcluded pRect (some g :: rest) = withoutExcluded pRect rest := by
          simp [withoutExcluded, h]
        rw [this, List.foldl_cons,
          scanStep_not_retained pRect s g (isRetained_of_isExcluded pRect g h), ih]
      | false =>
        have : withoutExcluded pRect (some g :: rest) =
            some g :: withoutExcluded pRect rest := by
          simp [withoutExcluded, h]
        rw [this, List.foldl_cons, List.foldl_cons, ih]

theorem scanObjects_withoutExcluded (pRect : CCRect) (objs : List (Option GameObject)) :
    scanObjects pRect (withoutExcluded pRect objs) = scanObjects pRect objs := by
  simp only [scanObjects, scan_withoutExcluded_from]

/-- C3: excluded objects never influence the output: the nearest-hazard
distance, the nearest-solid distance and all 30 slots written for an object
array equal those written for the array with every excluded object removed
(`dx < -50`, `dx > 800`, or decoration). -/
theorem C3_excluded_objects_ignored (fr : Frame) (w : World) (player : PlayerObject)
    (mem : SharedState) (hp : fr.m_player1 = some player) (hm : w.pSharedMem = some mem)
    (hr : mem.reset_command ≠ 1) :
    ∃ out out',
      (rl_loop fr w).world.pSharedMem = some out ∧
      (rl_loop { fr with m_objects := withoutExcluded player.objectRect fr.m_objects }
        w).world.pSharedMem = some out' ∧
      out'.dist_nearest_hazard = out.dist_nearest_hazard ∧
      out'.dist_nearest_solid = out.dist_nearest_solid ∧
      out'.objects = out.objects := by
  refine ⟨_, _, rl_loop_mem fr w player mem hp hm hr,
    rl_loop_mem { fr with m_objects := withoutExcluded player.objectRect fr.m_objects }
      w player mem hp hm hr, ?_, ?_, ?_⟩
  · rw [writeSnapshot_hazard, writeSnapshot_hazard, scanObjects_withoutExcluded]
  · rw [writeSnapshot_solid, writeSnapshot_solid, scanObjects_withoutExcluded]
  · rw [writeSnapshot_objects, writeSnapshot_objects, scanObjects_withoutExcluded]

/-- C3 on the sample frame, whose array loses the far portal and the
decoration. -/
theorem C3_excluded_objects_ignored_witness :
    (sampleFrame.m_player1 = some samplePlayer ∧ sampleWorld.pSharedMem = some zeroMem ∧
      zeroMem.reset_command ≠ 1) ∧
    (∃ out out',
      (rl_loop sampleFrame sampleWorld).world.pSharedMem = some out ∧
      (rl_loop { sampleFrame with
          m_objects := withoutExcluded samplePlayer.objectRect sampleFrame.m_objects }
        sampleWorld).world.pSharedMem = some out' ∧
      out'.dist_nearest_hazard = out.dist_nearest_hazard ∧
      out'.dist_nearest_solid = out.dist_nearest_solid ∧
      out'.objects = out.objects) ∧
    withoutExcluded samplePlayer.objectRect sampleFrame.m_objects =
      [some ⟨8, GameObjectType.Hazard, ⟨145, 90, 30, 30⟩⟩,
       some ⟨1, GameObjectType.Solid, ⟨125, 90, 30, 30⟩⟩, none] :=
  ⟨⟨rfl, rfl, by decide⟩,
    C3_excluded_objects_ignored sampleFrame sampleWorld samplePlayer zeroMem rfl rfl (by decide),
    by decide!⟩

/-- C4 at a hazard carrying the portal identifier 12, a solid carrying 13, and
a typeless object carrying 12. -/
theorem C4_category_type_precedence_witness :
    categoryToInt (getObjectCategory
      (some ⟨12, GameObjectType.Hazard, ⟨0, 0, 30, 30⟩⟩)) = 1 ∧
    categoryToInt (getObjectCategory
      (some ⟨13, GameObjectType.Solid, ⟨0, 0, 30, 30⟩⟩)) = 2 ∧
    categoryToInt (getObjectCategory
      (some ⟨12, GameObjectType.Other 7, ⟨0, 0, 30, 30⟩⟩)) = 5 :=
  ⟨(C4_category_type_precedence ⟨12, GameObjectType.Hazard, ⟨0, 0, 30, 30⟩⟩).1 rfl,
    (C4_category_type_precedence ⟨13, GameObjectType.Solid, ⟨0, 0, 30, 30⟩⟩).2.1 rfl,
    ((C4_category_type_precedence ⟨12, GameObjectType.Other 7, ⟨0, 0, 30, 30⟩⟩).2.2
      (by decide)).2 ⟨by decide, by decide⟩⟩

/-! ### The tracker -/

theorem wrapInt32_of_range (n : Int) (h1 : -2147483648 ≤ n) (h2 : n < 2147483648) :
    wrapInt32 n = n := by
  unfold wrapInt32
  omega

theorem handleCheckpoint_reset_command (practice : Bool) (mem : SharedState) :
    (handleCheckpoint practice mem).1.reset_command = mem.reset_command := by
  unfold handleCheckpoint
  split_ifs <;> rfl

theorem writeSnapshot_reset_command (fr : Frame) (player : PlayerObject) (mem : SharedState)
    (f : Fields) : (writeSnapshot fr player mem f).1.reset_command = mem.reset_command := rfl

theorem writeSnapshot_percent (fr : Frame) (player : PlayerObject) (mem : SharedState)
    (f : Fields) :
    (writeSnapshot fr player mem f).1.percent =
      currentPct player.position_x fr.m_levelLength := rfl

theorem writeSnapshot_lastPercent (fr : Frame) (player : PlayerObject) (mem : SharedState)
    (f : Fields) :
    (writeSnapshot fr player mem f).2.m_lastPercent =
      currentPct player.position_x fr.m_levelLength := rfl

theorem writeSnapshot_stuckFrames (fr : Frame) (player : PlayerObject) (mem : SharedState)
    (f : Fields) :
    (writeSnapshot fr player mem f).2.m_stuckFrames =
      stuckUpdate (currentPct player.position_x fr.m_levelLength) f.m_lastPercent
        player.m_isDead f.m_stuckFrames := rfl

theorem writeSnapshot_is_terminal (fr : Frame) (player : PlayerObject) (mem : SharedState)
    (f : Fields) :
    (writeSnapshot fr player mem f).1.is_terminal =
      boolToInt ((player.m_isDead ||
          decide ((writeSnapshot fr player mem f).2.m_stuckFrames > 30)) ||
        decide ((writeSnapshot fr player mem f).1.percent ≥ 100)) := rfl

theorem rl_loop_fields (fr : Frame) (w : World) (player : PlayerObject) (mem : SharedState)
    (hp : fr.m_player1 = some player) (hm : w.pSharedMem = some mem)
    (hr : mem.reset_command ≠ 1) :
    (rl_loop fr w).world.fields.m_stuckFrames =
        (writeSnapshot fr player (handleCheckpoint fr.m_isPracticeMode mem).1
          w.fields).2.m_stuckFrames ∧
      (rl_loop fr w).world.fields.m_lastPercent =
        (writeSnapshot fr player (handleCheckpoint fr.m_isPracticeMode mem).1
          w.fields).2.m_lastPercent ∧
      (rl_loop fr w).world.fields.m_lastX =
        (writeSnapshot fr player (handleCheckpoint fr.m_isPracticeMode mem).1
          w.fields).2.m_lastX := by
  rw [rl_loop_write fr w player mem hp hm hr]
  exact ⟨rfl, rfl, rfl⟩

theorem consume_mem (c : ConsumerWrite) (w : World) (mem : SharedState)
    (hm : w.pSharedMem = some mem) : (consume c w).pSharedMem = some (c.store mem) := by
  simp [consume, hm]

theorem consume_fields (c : ConsumerWrite) (w : World) : (consume c w).fields = w.fields := rfl

theorem store_reset_command_ne (c : ConsumerWrite) (mem : SharedState)
    (hc : c.reset_command ≠ some 1) (hr : mem.reset_command ≠ 1) :
    (c.store mem).reset_command ≠ 1 := by
  cases h : c.reset_command with
  | none => simpa [ConsumerWrite.store, h] using hr
  | some v =>
    simp only [ConsumerWrite.store, h, Option.getD_some]
    intro hv
    exact hc (by rw [h, hv])

/-- One cycle on a stuck frame: the counter goes up by one, and the snapshot
carries the terminal flag of the new counter. -/
theorem stuck_cycle (fr : Frame) (w : World) (mem : SharedState) (c : Int)
    (hm : w.pSharedMem = some mem) (hr : mem.reset_command ≠ 1)
    (hc : w.fields.m_stuckFrames = c) (hc0 : 0 ≤ c) (hc1 : c + 1 < 2147483648)
    (hs : ∃ p, fr.m_player1 = some p ∧ p.m_isDead = false ∧
      |framePct fr - w.fields.m_lastPercent| < 1 / 10000 ∧ framePct fr > 1 / 2) :
    ∃ out, (rl_loop fr w).world.pSharedMem = some out ∧
      out.reset_command ≠ 1 ∧
      out.percent = framePct fr ∧
      out.is_terminal = boolToInt (decide (c + 1 > 30) || decide (framePct fr ≥ 100)) ∧
      (rl_loop fr w).world.fields.m_stuckFrames = c + 1 ∧
      (rl_loop fr w).world.fields.m_lastPercent = framePct fr := by
  obtain ⟨p, hp, hdead, habs, hhalf⟩ := hs
  have hpct : framePct fr = currentPct p.position_x fr.m_levelLength := by
    simp [framePct, hp]
  rw [hpct] at habs hhalf ⊢
  obtain ⟨hf1, hf2, _⟩ := rl_loop_fields fr w p mem hp hm hr
  have hst : (writeSnapshot fr p (handleCheckpoint fr.m_isPracticeMode mem).1
      w.fields).2.m_stuckFrames = c + 1 := by
    rw [writeSnapshot_stuckFrames, stuckUpdate, if_pos ⟨habs, hhalf, hdead⟩, hc]
    exact wrapInt32_of_range _ (by omega) hc1
  refine ⟨_, rl_loop_mem fr w p mem hp hm hr, ?_, ?_, ?_, ?_, ?_⟩
  · rw [writeSnapshot_reset_command, handleCheckpoint_reset_command]; exact hr
  · rw [writeSnapshot_percent]
  · rw [writeSnapshot_is_terminal, hst, writeSnapshot_percent, hdead]
    simp
  · rw [hf1, hst]
  · rw [hf2, writeSnapshot_lastPercent]

/-- Along a run of stuck frames during which the consumer never requests a
reset, cycle `i` (from 0) leaves the counter at `c + i + 1` and writes the
terminal flag of that counter. -/
theorem stuck_run (steps : List Step) :
    ∀ (w : World) (mem : SharedState) (c : Int),
      w.pSharedMem = some mem → mem.reset_command ≠ 1 →
      w.fields.m_stuckFrames = c → 0 ≤ c → c + steps.length < 2147483648 →
      (∀ st ∈ steps, st.consumer.reset_command ≠ some 1) →
      StuckFrames w.fields.m_lastPercent (steps.map (fun st => st.frame)) →
      ∀ (i : Nat) (r : CycleResult), (runCycles steps w)[i]? = some r →
        ∃ out fr, (steps.map (fun st => st.frame))[i]? = some fr ∧
          r.world.pSharedMem = some out ∧
          out.percent = framePct fr ∧
          out.is_terminal =
            boolToInt (decide (c + i + 1 > 30) || decide (framePct fr ≥ 100)) := by
  induction steps with
  | nil =>
    intro w mem c _ _ _ _ _ _ _ i r hi
    simp [runCycles] at hi
  | cons st rest ih =>
    intro w mem c hm hr hc hc0 hlen hno hstuck i r hi
    simp only [List.map_cons, StuckFrames] at hstuck
    obtain ⟨hs, hrest⟩ := hstuck
    simp only [List.length_cons, Nat.cast_add, Nat.cast_one] at hlen
    have hm1 := consume_mem st.consumer w mem hm
    have hr1 := store_reset_command_ne st.consumer mem (hno st (List.mem_cons_self _ _)) hr
    obtain ⟨out, hout, hro, hpo, hto, hso, hlo⟩ :=
      stuck_cycle st.frame (consume st.consumer w) (st.consumer.store mem) c hm1 hr1
        hc hc0 (by omega) hs
    cases i with
    | zero =>
      simp only [runCycles, List.getElem?_cons_zero, Option.some.injEq] at hi
      subst hi
      refine ⟨out, st.frame, by simp, hout, hpo, ?_⟩
      simpa using hto
    | succ k =>
      simp only [runCycles, List.getElem?_cons_succ] at hi
      rw [← hlo] at hrest
      obtain ⟨out', fr', hfr', hout', hpo', hto'⟩ :=
        ih _ out (c + 1) hout hro hso (by omega) (by omega)
          (fun s hs' => hno s (List.mem_cons_of_mem _ hs')) hrest k r hi
      refine ⟨out', fr', by simpa using hfr', hout', hpo', ?_⟩
      rw [hto']
      have : c + 1 + (k : Int) + 1 = c + ((k + 1 : Nat) : Int) + 1 := by push_cast; ring
      rw [this]

theorem runCycles_length (steps : List Step) :
    ∀ w : World, (runCycles steps w).length = steps.length := by
  induction steps with
  | nil => intro w; rfl
  | cons st rest ih => intro w; simp [runCycles, ih]

theorem stuckFrames_replicate (fr : Frame) (n : Nat)
    (h : ∃ p, fr.m_player1 = some p ∧ p.m_isDead = false ∧ framePct fr > 1 / 2) :
    ∀ prev : ℚ, |framePct fr - prev| < 1 / 10000 →
      StuckFrames prev (List.replicate n fr) := by
  induction n with
  | zero => intro prev _; trivial
  | succ k ih =>
    intro prev hprev
    obtain ⟨p, hp, hd, hhalf⟩ := h
    refine ⟨⟨p, hp, hd, hprev, hhalf⟩, ih (framePct fr) ?_⟩
    rw [sub_self, abs_zero]
    norm_num

theorem stuckSteps_frames (n : Nat) :
    (stuckSteps n).map (fun st => st.frame) = List.replicate n sampleFrame := by
  simp [stuckSteps]

/-- C5: starting from a stuck counter of 0, along 31 consecutive
snapshot-writing cycles whose percent stays within `1e-4` of the previous
cycle's percent and above 0.5 with no death reported, `is_terminal` is written
as 1 on the 31st cycle and, when that cycle's percent is below 100, as 0 on
each of the first 30. -/
theorem C5_stuck_terminal_on_cycle_31 (steps : List Step) (w : World) (mem : SharedState)
    (hm : w.pSharedMem = some mem) (hr : mem.reset_command ≠ 1)
    (h0 : w.fields.m_stuckFrames = 0) (hlen : steps.length = 31)
    (hno : ∀ st ∈ steps, st.consumer.reset_command ≠ some 1)
    (hstuck : StuckFrames w.fields.m_lastPercent (steps.map (fun st => st.frame))) :
    (runCycles steps w).length = 31 ∧
    ∀ (i : Nat) (r : CycleResult), (runCycles steps w)[i]? = some r →
      ∃ out, r.world.pSharedMem = some out ∧
        (i = 30 → out.is_terminal = 1) ∧
        (i < 30 → out.percent < 100 → out.is_terminal = 0) := by
  refine ⟨by rw [runCycles_length, hlen], ?_⟩
  intro i r hi
  obtain ⟨out, fr, _, hout, hpo, hto⟩ :=
    stuck_run steps w mem 0 hm hr h0 (le_refl 0) (by rw [hlen]; norm_num) hno hstuck i r hi
  refine ⟨out, hout, ?_, ?_⟩
  · intro h30
    rw [hto, h30]
    simp [boolToInt]
  · intro hlt hpct
    rw [hto]
    have h1 : decide ((0 : Int) + (i : Int) + 1 > 30) = false :=
      decide_eq_false (by omega)
    have h2 : decide (framePct fr ≥ 100) = false :=
      decide_eq_false (by rw [← hpo]; exact not_le.2 hpct)
    rw [h1, h2]
    rfl

/-- C5 on 31 repetitions of the sample frame (percent 10): the terminal flag
reads 0 after each of the first 30 cycles and 1 after the 31st. -/
theorem C5_stuck_terminal_on_cycle_31_witness :
    ((runCycles (stuckSteps 31) stuckWorld).length = 31 ∧
      ∀ (i : Nat) (r : CycleResult), (runCycles (stuckSteps 31) stuckWorld)[i]? = some r →
        ∃ out, r.world.pSharedMem = some out ∧
          (i = 30 → out.is_terminal = 1) ∧
          (i < 30 → out.percent < 100 → out.is_terminal = 0)) ∧
    (runCycles (stuckSteps 31) stuckWorld).map
        (fun r => r.world.pSharedMem.map (fun m => m.is_terminal)) =
      List.replicate 30 (some 0) ++ [some 1] :=
  ⟨C5_stuck_terminal_on_cycle_31 (stuckSteps 31) stuckWorld zeroMem rfl (by decide) rfl rfl
      (by
        intro st hst
        rw [stuckSteps, List.mem_replicate] at hst
        rw [hst.2]
        decide)
      (by
        rw [stuckSteps_frames]
        exact stuckFrames_replicate sampleFrame 31 ⟨samplePlayer, rfl, rfl, by decide!⟩
          _ (by decide!)),
    by decide!⟩

/-- C6 as stated fails: after 31 stuck cycles (counter 31, player alive, percent
10) the flag is 1; the player then moves to percent 20 and the next cycle,
without any reset having been requested or performed, writes `is_terminal = 0`
and takes the counter back to 0. -/
theorem C6_terminal_not_latched :
    (runCycles (stuckSteps 31 ++ [{ consumer := noWrite, frame := movedFrame }])
        stuckWorld).map
      (fun r => (r.world.pSharedMem.map (fun m => (m.is_terminal, m.percent, m.reset_command)),
        r.world.fields.m_stuckFrames, r.calls.map Prod.fst)) =
      (List.range 30).map (fun i => (some (0, 10, 0), (i : Int) + 1, [])) ++
        [(some (1, 10, 0), 31, []), (some (0, 20, 0), 0, [])] := by
  decide!

/-- C6, amended: once the stuck counter is above 30, `is_terminal` is written
as 1 on every subsequent cycle for as long as no reset is requested and each
cycle's percent stays within `1e-4` of the previous cycle's percent and above
0.5 with no death reported (the counter staying below `2^31`). -/
theorem C6_stuck_terminal_persists (steps : List Step) (w : World) (mem : SharedState)
    (hm : w.pSharedMem = some mem) (hr : mem.reset_command ≠ 1)
    (hc : w.fields.m_stuckFrames > 30)
    (hlen : w.fields.m_stuckFrames + steps.length < 2147483648)
    (hno : ∀ st ∈ steps, st.consumer.reset_command ≠ some 1)
    (hstuck : StuckFrames w.fields.m_lastPercent (steps.map (fun st => st.frame))) :
    (runCycles steps w).length = steps.length ∧
    ∀ (i : Nat) (r : CycleResult), (runCycles steps w)[i]? = some r →
      ∃ out, r.world.pSharedMem = some out ∧ out.is_terminal = 1 := by
  refine ⟨runCycles_length steps w, ?_⟩
  intro i r hi
  obtain ⟨out, fr, _, hout, _, hto⟩ :=
    stuck_run steps w mem w.fields.m_stuckFrames hm hr rfl (by omega) hlen hno hstuck i r hi
  refine ⟨out, hout, ?_⟩
  have h1 : decide (w.fields.m_stuckFrames + (i : Int) + 1 > 30) = true :=
    decide_eq_true (by omega)
  rw [hto, h1]
  rfl

/-- C6 amended, on five more sample frames after the player was declared
stuck: the flag reads 1 after each of them. -/
theorem C6_stuck_terminal_persists_witness :
    ((runCycles (stuckSteps 5) stuckDeadWorld).length = (stuckSteps 5).length ∧
      ∀ (i : Nat) (r : CycleResult), (runCycles (stuckSteps 5) stuckDeadWorld)[i]? = some r →
        ∃ out, r.world.pSharedMem = some out ∧ out.is_terminal = 1) ∧
    (runCycles (stuckSteps 5) stuckDeadWorld).map
        (fun r => r.world.pSharedMem.map (fun m => m.is_terminal)) =
      List.replicate 5 (some 1) :=
  ⟨C6_stuck_terminal_persists (stuckSteps 5) stuckDeadWorld
      { zeroMem with is_dead := 1, is_terminal := 1, percent := 10 } rfl (by decide)
      (by decide) (by decide)
      (by
        intro st hst
        rw [stuckSteps, List.mem_replicate] at hst
        rw [hst.2]
        decide)
      (by
        rw [stuckSteps_frames]
        exact stuckFrames_replicate sampleFrame 5 ⟨samplePlayer, rfl, rfl, by decide!⟩
          _ (by decide!)),
    by decide!⟩

/-! ### The action channel -/

theorem handleCheckpoint_action_command (practice : Bool) (mem : SharedState) :
    (handleCheckpoint practice mem).1.action_command = mem.action_command := by
  unfold handleCheckpoint
  split_ifs <;> rfl

theorem handleCheckpoint_no_button (practice : Bool) (mem : SharedState) :
    ((handleCheckpoint practice mem).2.map Prod.fst).filter
      (fun c => decide (c = HostCall.pushButton ∨ c = HostCall.releaseButton)) = [] := by
  unfold handleCheckpoint
  split_ifs <;> simp

theorem applyAction_all_button (cmd : Int) (holding : Bool) :
    (applyAction cmd holding).2.filter
      (fun c => decide (c = HostCall.pushButton ∨ c = HostCall.releaseButton)) =
      (applyAction cmd holding).2 := by
  unfold applyAction
  split_ifs <;> simp

theorem writeSnapshot_action_command (fr : Frame) (player : PlayerObject) (mem : SharedState)
    (f : Fields) : (writeSnapshot fr player mem f).1.action_command = mem.action_command := rfl

theorem writeSnapshot_isHolding (fr : Frame) (player : PlayerObject) (mem : SharedState)
    (f : Fields) : (writeSnapshot fr player mem f).2.m_isHolding = f.m_isHolding := rfl

/-- A cycle that writes the snapshot ends with the action block applied to the
command value found in the region. -/
theorem action_cycle (fr : Frame) (w : World) (player : PlayerObject) (mem : SharedState)
    (hp : fr.m_player1 = some player) (hm : w.pSharedMem = some mem)
    (hr : mem.reset_command ≠ 1) :
    (rl_loop fr w).world.fields.m_isHolding =
        (applyAction mem.action_command w.fields.m_isHolding).1 ∧
      buttonCalls (rl_loop fr w) = (applyAction mem.action_command w.fields.m_isHolding).2 := by
  rw [rl_loop_write fr w player mem hp hm hr]
  simp only [buttonCalls, writeSnapshot_action_command, writeSnapshot_isHolding,
    handleCheckpoint_action_command, List.map_append, List.filter_append,
    handleCheckpoint_no_button, List.nil_append, List.map_map]
  refine ⟨trivial, ?_⟩
  have : (Prod.fst ∘ fun c =>
      (c, (writeSnapshot fr player (handleCheckpoint fr.m_isPracticeMode mem).1 w.fields).1)) =
      (id : HostCall → HostCall) := rfl
  rw [this, List.map_id]
  exact applyAction_all_button _ _

theorem applyAction_binary (v prev : Int) (hv : v = 0 ∨ v = 1) (hprev : prev = 0 ∨ prev = 1) :
    (applyAction v (decide (prev = 1))).1 = decide (v = 1) ∧
      (applyAction v (decide (prev = 1))).2 =
        (if v = 1 ∧ prev = 0 then [HostCall.pushButton]
          else if v = 0 ∧ prev = 1 then [HostCall.releaseButton]
          else []) := by
  rcases hv with rfl | rfl <;> rcases hprev with rfl | rfl <;> decide

theorem store_action_command (c : ConsumerWrite) (mem : SharedState) (v : Int)
    (h : c.action_command = some v) : (c.store mem).action_command = v := by
  simp [ConsumerWrite.store, h]

theorem action_run (steps : List Step) :
    ∀ (vs : List Int) (w : World) (mem : SharedState) (prev : Int),
      w.pSharedMem = some mem → mem.reset_command ≠ 1 →
      (prev = 0 ∨ prev = 1) → w.fields.m_isHolding = decide (prev = 1) →
      steps.map (fun st => st.consumer.action_command) = vs.map some →
      (∀ v ∈ vs, v = 0 ∨ v = 1) →
      (∀ st ∈ steps, st.consumer.reset_command ≠ some 1) →
      (∀ st ∈ steps, st.frame.m_player1 ≠ none) →
      (runCycles steps w).map buttonCalls = expectedEvents prev vs ∧
        (runCycles steps w).map (fun r => r.world.fields.m_isHolding) =
          vs.map (fun v => decide (v = 1)) := by
  induction steps with
  | nil =>
    intro vs w mem prev _ _ _ _ hact _ _ _
    cases vs with
    | nil => exact ⟨rfl, rfl⟩
    | cons v rest => simp at hact
  | cons st rest ih =>
    intro vs w mem prev hm hr hprev hh hact hbin hno hpl
    cases vs with
    | nil => simp at hact
    | cons v vrest =>
      simp only [List.map_cons, List.cons.injEq] at hact
      obtain ⟨hv, hrest⟩ := hact
      have hvb := hbin v (List.mem_cons_self _ _)
      obtain ⟨p, hp⟩ := Option.ne_none_iff_exists'.1 (hpl st (List.mem_cons_self _ _))
      have hm1 := consume_mem st.consumer w mem hm
      have hr1 := store_reset_command_ne st.consumer mem (hno st (List.mem_cons_self _ _)) hr
      obtain ⟨hhold, hcalls⟩ :=
        action_cycle st.frame (consume st.consumer w) p (st.consumer.store mem) hp hm1 hr1
      rw [store_action_command _ _ v hv, consume_fields, hh] at hhold hcalls
      obtain ⟨hb1, hb2⟩ := applyAction_binary v prev hvb hprev
      rw [hb1] at hhold
      rw [hb2] at hcalls
      have hmem := rl_loop_mem st.frame (consume st.consumer w) p (st.consumer.store mem)
        hp hm1 hr1
      have hro : (writeSnapshot st.frame p
          (handleCheckpoint st.frame.m_isPracticeMode (st.consumer.store mem)).1
          (consume st.consumer w).fields).1.reset_command ≠ 1 := by
        rw [writeSnapshot_reset_command, handleCheckpoint_reset_command]; exact hr1
      obtain ⟨ih1, ih2⟩ := ih vrest _ _ v hmem hro hvb hhold hrest
        (fun u hu => hbin u (List.mem_cons_of_mem _ hu))
        (fun s hs => hno s (List.mem_cons_of_mem _ hs))
        (fun s hs => hpl s (List.mem_cons_of_mem _ hs))
      refine ⟨?_, ?_⟩
      · simp only [runCycles, List.map_cons, expectedEvents, hcalls, ih1]
      · simp only [runCycles, List.map_cons, hhold, ih2]

theorem expectedEvents_length (vs : List Int) :
    ∀ prev : Int, (prev = 0 ∨ prev = 1) → (∀ v ∈ vs, v = 0 ∨ v = 1) →
      (expectedEvents prev vs).flatten.length = valueChanges prev vs := by
  induction vs with
  | nil => intro prev _ _; rfl
  | cons v rest ih =>
    intro prev hprev hbin
    have hv := hbin v (List.mem_cons_self _ _)
    have hrec := ih v hv (fun u hu => hbin u (List.mem_cons_of_mem _ hu))
    simp only [expectedEvents, valueChanges, List.flatten_cons, List.length_append, hrec]
    congr 1
    rcases hv with rfl | rfl <;> rcases hprev with rfl | rfl <;> decide

theorem expectedEvents_alternate (vs : List Int) :
    ∀ prev : Int, (prev = 0 ∨ prev = 1) → (∀ v ∈ vs, v = 0 ∨ v = 1) →
      List.Chain' (fun a b => a ≠ b) (expectedEvents prev vs).flatten ∧
        ∀ e ∈ (expectedEvents prev vs).flatten.head?,
          (prev = 0 → e = HostCall.pushButton) ∧ (prev = 1 → e = HostCall.releaseButton) := by
  induction vs with
  | nil =>
    intro prev _ _
    exact ⟨List.chain'_nil, by simp [expectedEvents]⟩
  | cons v rest ih =>
    intro prev hprev hbin
    have hv := hbin v (List.mem_cons_self _ _)
    obtain ⟨hch, hhead⟩ := ih v hv (fun u hu => hbin u (List.mem_cons_of_mem _ hu))
    simp only [expectedEvents, List.flatten_cons]
    rcases hv with rfl | rfl <;> rcases hprev with rfl | rfl
    · simp only [zero_ne_one, false_and, and_false, if_false, List.nil_append]
      exact ⟨hch, fun e he => ⟨fun _ => (hhead e he).1 rfl, fun h => h.elim⟩⟩
    · simp only [zero_ne_one, false_and, true_and, if_false, if_true, List.singleton_append]
      refine ⟨List.Chain'.cons' hch ?_, ?_⟩
      · intro y hy
        rw [(hhead y hy).1 rfl]
        decide
      · intro e he
        simp only [List.head?_cons, Option.mem_def, Option.some.injEq] at he
        subst he
        exact ⟨fun h => absurd h (by decide), fun _ => rfl⟩
    · simp only [true_and, if_true, List.singleton_append]
      refine ⟨List.Chain'.cons' hch ?_, ?_⟩
      · intro y hy
        rw [(hhead y hy).2 rfl]
        decide
      · intro e he
        simp only [List.head?_cons, Option.mem_def, Option.some.injEq] at he
        subst he
        exact ⟨fun _ => rfl, fun h => absurd h (by decide)⟩
    · simp only [one_ne_zero, and_false, false_and, if_false, List.nil_append]
      exact ⟨hch, fun e he => ⟨fun h => h.elim, fun _ => (hhead e he).2 rfl⟩⟩

/-- C7: for command values in {0,1} applied on consecutive non-reset cycles from
`is_holding = false`, cycle `i` emits a press exactly when its value is 1 and
the previous value (initially 0) was 0, a release exactly when its value is 0
and the previous one was 1, and nothing otherwise; the number of events is the
number of value changes, consecutive events differ in kind, and after each
cycle `is_holding = (value == 1)`. -/
theorem C7_action_edges (steps : List Step) (vs : List Int) (w : World) (mem : SharedState)
    (hm : w.pSharedMem = some mem) (hr : mem.reset_command ≠ 1)
    (hh : w.fields.m_isHolding = false)
    (hact : steps.map (fun st => st.consumer.action_command) = vs.map some)
    (hbin : ∀ v ∈ vs, v = 0 ∨ v = 1)
    (hno : ∀ st ∈ steps, st.consumer.reset_command ≠ some 1)
    (hpl : ∀ st ∈ steps, st.frame.m_player1 ≠ none) :
    (runCycles steps w).map buttonCalls = expectedEvents 0 vs ∧
    (runCycles steps w).map (fun r => r.world.fields.m_isHolding) =
      vs.map (fun v => decide (v = 1)) ∧
    ((runCycles steps w).map buttonCalls).flatten.length = valueChanges 0 vs ∧
    List.Chain' (fun a b => a ≠ b) ((runCycles steps w).map buttonCalls).flatten := by
  obtain ⟨h1, h2⟩ := action_run steps vs w mem 0 hm hr (Or.inl rfl) (by rw [hh]; rfl)
    hact hbin hno hpl
  refine ⟨h1, h2, ?_, ?_⟩
  · rw [h1]; exact expectedEvents_length vs 0 (Or.inl rfl) hbin
  · rw [h1]; exact (expectedEvents_alternate vs 0 (Or.inl rfl) hbin).1

/-- C7 on the values `[1,1,1,0,0,1]`: press on cycle 1, release on cycle 4,
press on cycle 6, and nothing on the other cycles. -/
theorem C7_action_edges_witness :
    ((runCycles (actionSteps [1, 1, 1, 0, 0, 1]) sampleWorld).map buttonCalls =
        expectedEvents 0 [1, 1, 1, 0, 0, 1] ∧
      (runCycles (actionSteps [1, 1, 1, 0, 0, 1]) sampleWorld).map
          (fun r => r.world.fields.m_isHolding) =
        [1, 1, 1, 0, 0, 1].map (fun v => decide (v = (1 : Int))) ∧
      ((runCycles (actionSteps [1, 1, 1, 0, 0, 1]) sampleWorld).map buttonCalls).flatten.length =
        valueChanges 0 [1, 1, 1, 0, 0, 1] ∧
      List.Chain' (fun a b => a ≠ b)
        ((runCycles (actionSteps [1, 1, 1, 0, 0, 1]) sampleWorld).map buttonCalls).flatten) ∧
    (runCycles (actionSteps [1, 1, 1, 0, 0, 1]) sampleWorld).map buttonCalls =
      [[HostCall.pushButton], [], [], [HostCall.releaseButton], [], [HostCall.pushButton]] ∧
    valueChanges 0 [1, 1, 1, 0, 0, 1] = 3 :=
  ⟨C7_action_edges (actionSteps [1, 1, 1, 0, 0, 1]) [1, 1, 1, 0, 0, 1] sampleWorld zeroMem
      rfl (by decide) rfl rfl (by decide) (by decide) (by decide),
    by decide!, by decide⟩

/-! ### The reset command -/

theorem rl_loop_reset (fr : Frame) (w : World) (player : PlayerObject) (mem : SharedState)
    (hp : fr.m_player1 = some player) (hm : w.pSharedMem = some mem)
    (hr : mem.reset_command = 1) :
    rl_loop fr w =
      { world :=
          { pSharedMem := some { mem with reset_command := 0 },
            fields := { w.fields with m_stuckFrames := 0 } },
        calls := [(HostCall.resetLevel, { mem with reset_command := 0 })],
        spins := 0,
        cpp_writing_stores := [] } := by
  simp only [rl_loop, hp, hm, if_pos hr]

theorem rl_loop_idle (fr : Frame) (w : World)
    (h : fr.m_player1 = none ∨ w.pSharedMem = none) :
    rl_loop fr w = { world := w, calls := [], spins := 0, cpp_writing_stores := [] } := by
  rcases h with h | h
  · simp only [rl_loop, h]
  · cases hp : fr.m_player1 <;> simp only [rl_loop, h, hp]

theorem handleCheckpoint_calls (practice : Bool) (mem : SharedState) :
    ∀ c ∈ (handleCheckpoint practice mem).2, c.1 = HostCall.createCheckpoint := by
  unfold handleCheckpoint
  split_ifs <;> simp

theorem applyAction_calls (cmd : Int) (holding : Bool) :
    ∀ c ∈ (applyAction cmd holding).2,
      c = HostCall.pushButton ∨ c = HostCall.releaseButton := by
  unfold applyAction
  split_ifs <;> simp

/-- A cycle entered with `reset_command ≠ 1` calls no level reset and leaves
`reset_command ≠ 1`. -/
theorem no_reset_cycle (fr : Frame) (w : World)
    (hinv : ∀ mem, w.pSharedMem = some mem → mem.reset_command ≠ 1) :
    (∀ c ∈ (rl_loop fr w).calls, c.1 ≠ HostCall.resetLevel) ∧
      ∀ mem, (rl_loop fr w).world.pSharedMem = some mem → mem.reset_command ≠ 1 := by
  cases hp : fr.m_player1 with
  | none =>
    rw [rl_loop_idle fr w (Or.inl hp)]
    exact ⟨by simp, hinv⟩
  | some p =>
    cases hm : w.pSharedMem with
    | none =>
      rw [rl_loop_idle fr w (Or.inr hm)]
      exact ⟨by simp, by rw [hm]; simp⟩
    | some mem =>
      have hr := hinv mem hm
      rw [rl_loop_write fr w p mem hp hm hr]
      constructor
      · intro c hc
        simp only [List.mem_append, List.mem_map] at hc
        rcases hc with hc | ⟨a, ha, rfl⟩
        · rw [handleCheckpoint_calls _ _ c hc]; decide
        · show a ≠ HostCall.resetLevel
          rcases applyAction_calls _ _ a ha with h | h <;> rw [h] <;> decide
      · intro m hm'
        simp only [Option.some.injEq] at hm'
        rw [← hm', writeSnapshot_reset_command, handleCheckpoint_reset_command]
        exact hr

theorem no_reset_run (steps : List Step) :
    ∀ w : World, (∀ mem, w.pSharedMem = some mem → mem.reset_command ≠ 1) →
      (∀ st ∈ steps, st.consumer.reset_command ≠ some 1) →
      ∀ r ∈ runCycles steps w, ∀ c ∈ r.calls, c.1 ≠ HostCall.resetLevel := by
  induction steps with
  | nil => intro w _ _ r hr; simp [runCycles] at hr
  | cons st rest ih =>
    intro w hinv hno r hr
    have hinv1 : ∀ mem, (consume st.consumer w).pSharedMem = some mem →
        mem.reset_command ≠ 1 := by
      intro m hm
      cases hw : w.pSharedMem with
      | none => simp [consume, hw] at hm
      | some m0 =>
        rw [consume_mem st.consumer w m0 hw, Option.some.injEq] at hm
        rw [← hm]
        exact store_reset_command_ne _ _ (hno st (List.mem_cons_self _ _)) (hinv m0 hw)
    obtain ⟨h1, h2⟩ := no_reset_cycle st.frame (consume st.consumer w) hinv1
    simp only [runCycles, List.mem_cons] at hr
    rcases hr with rfl | hr
    · exact h1
    · exact ih _ h2 (fun s hs => hno s (List.mem_cons_of_mem _ hs)) r hr

/-- C8: a cycle entered with `reset_command = 1` (region attached, player
present) makes exactly one host call, the level reset, at a moment when
`reset_command` already reads 0; the flag is 0 when the cycle ends; and as long
as the consumer does not store 1 again, no later cycle calls a reset. -/
theorem C8_reset_one_shot (fr : Frame) (w : World) (player : PlayerObject) (mem : SharedState)
    (steps : List Step)
    (hp : fr.m_player1 = some player) (hm : w.pSharedMem = some mem)
    (hr : mem.reset_command = 1)
    (hno : ∀ st ∈ steps, st.consumer.reset_command ≠ some 1) :
    (∃ seen, (rl_loop fr w).calls = [(HostCall.resetLevel, seen)] ∧ seen.reset_command = 0) ∧
    (∃ out, (rl_loop fr w).world.pSharedMem = some out ∧ out.reset_command = 0) ∧
    (∀ r ∈ runCycles steps (rl_loop fr w).world, ∀ c ∈ r.calls,
      c.1 ≠ HostCall.resetLevel) := by
  have hres := rl_loop_reset fr w player mem hp hm hr
  refine ⟨⟨{ mem with reset_command := 0 }, by rw [hres], rfl⟩,
    ⟨{ mem with reset_command := 0 }, by rw [hres], rfl⟩, ?_⟩
  apply no_reset_run steps _ _ hno
  intro m hm'
  rw [hres] at hm'
  simp only [Option.some.injEq] at hm'
  rw [← hm']
  show (0 : Int) ≠ 1
  decide

/-- C8 on the sample world with a reset pending, followed by three cycles on
which the consumer only stores action values. -/
theorem C8_reset_one_shot_witness :
    ((∃ seen, (rl_loop sampleFrame resetWorld).calls = [(HostCall.resetLevel, seen)] ∧
        seen.reset_command = 0) ∧
      (∃ out, (rl_loop sampleFrame resetWorld).world.pSharedMem = some out ∧
        out.reset_command = 0) ∧
      (∀ r ∈ runCycles (actionSteps [1, 0, 1]) (rl_loop sampleFrame resetWorld).world,
        ∀ c ∈ r.calls, c.1 ≠ HostCall.resetLevel)) ∧
    (runCycles ({ consumer := noWrite, frame := sampleFrame } :: actionSteps [1, 0, 1])
        resetWorld).map (fun r => r.calls.map Prod.fst) =
      [[HostCall.resetLevel], [HostCall.pushButton], [HostCall.releaseButton],
        [HostCall.pushButton]] :=
  ⟨C8_reset_one_shot sampleFrame resetWorld samplePlayer
      { zeroMem with reset_command := 1, is_terminal := 1 } (actionSteps [1, 0, 1])
      rfl rfl rfl (by decide),
    by decide!⟩

/-- C9 fails on the code: the cycle that consumes a reset request (tracker at
`last_x = 90`, `last_percent = 9`, counter 5) zeroes the counter only and
leaves `last_x = 90` and `last_percent = 9`; the next cycle, with the player
back at `x = 0`, therefore reports `player_vel_x = (0 - 90) / 0.016 = -5625`. -/
theorem C9_reset_keeps_last_position :
    (rl_loop sampleFrame resetWorld).calls.map Prod.fst = [HostCall.resetLevel] ∧
    (rl_loop sampleFrame resetWorld).world.fields =
      { m_isHolding := false, m_showDebug := true, m_lastX := 90, m_lastPercent := 9,
        m_stuckFrames := 0 } ∧
    (runCycles [{ consumer := noWrite, frame := sampleFrame },
        { consumer := noWrite, frame := restartFrame }] resetWorld).map
      (fun r => r.world.pSharedMem.map (fun m => m.player_vel_x)) =
      [some 0, some (-5625)] := by
  decide!

/-! ### The busy-wait -/

theorem spinFrom_le (reads : Nat → Int) :
    ∀ (n s : Nat), 5000 - s = n → s ≤ 5000 → spinFrom reads s ≤ 5000 := by
  intro n
  induction n with
  | zero =>
    intro s hn hs
    rw [spinFrom, if_neg (fun h => by omega)]
    exact hs
  | succ k ih =>
    intro s hn hs
    rw [spinFrom]
    split_ifs with h
    · exact ih (s + 1) (by omega) (by omega)
    · exact hs

theorem spinFrom_first (reads : Nat → Int) :
    ∀ (d s : Nat), s + d ≤ 5000 → reads (s + d) ≠ 1 →
      (∀ j, s ≤ j → j < s + d → reads j = 1) → spinFrom reads s = s + d := by
  intro d
  induction d with
  | zero =>
    intro s _ hne _
    rw [spinFrom, if_neg (fun h => hne h.1)]
    rfl
  | succ k ih =>
    intro s hle hne hall
    rw [spinFrom, if_pos ⟨hall s (le_refl s) (by omega), by omega⟩]
    have := ih (s + 1) (by omega) (by rw [show s + 1 + k = s + (k + 1) by omega]; exact hne)
      (fun j hj hj' => hall j (by omega) (by omega))
    rw [this]
    omega

theorem spinFrom_cap (reads : Nat → Int) :
    ∀ (n s : Nat), 5000 - s = n → s ≤ 5000 →
      (∀ j, s ≤ j → j < 5000 → reads j = 1) → spinFrom reads s = 5000 := by
  intro n
  induction n with
  | zero =>
    intro s hn hs _
    rw [spinFrom, if_neg (fun h => by omega)]
    omega
  | succ k ih =>
    intro s hn hs hall
    rw [spinFrom, if_pos ⟨hall s (le_refl s) (by omega), by omega⟩]
    exact ih (s + 1) (by omega) (by omega) (fun j hj hj' => hall j (by omega) hj')

/-- C10: whatever values the reads of `consumer_writing` return, the busy-wait
of a cycle that passed the command phase ends after at most 5000 iterations; it
stops at the first read that returns a value other than 1, and runs the full
5000 iterations when every read returns 1; in each case the cycle goes on to
store 1 and then 0 into `producer_writing` and to write the snapshot, which
does not depend on the values read. -/
theorem C10_bounded_wait (fr : Frame) (w : World) (player : PlayerObject) (mem : SharedState)
    (hp : fr.m_player1 = some player) (hm : w.pSharedMem = some mem)
    (hr : mem.reset_command ≠ 1) :
    (rl_loop fr w).spins = spinFrom fr.py_writing_reads 0 ∧
    (rl_loop fr w).spins ≤ 5000 ∧
    (∀ k, k ≤ 5000 → fr.py_writing_reads k ≠ 1 → (∀ j, j < k → fr.py_writing_reads j = 1) →
      (rl_loop fr w).spins = k) ∧
    ((∀ j, j < 5000 → fr.py_writing_reads j = 1) → (rl_loop fr w).spins = 5000) ∧
    (rl_loop fr w).cpp_writing_stores = [1, 0] ∧
    (rl_loop fr w).world.pSharedMem =
      some (writeSnapshot fr player (handleCheckpoint fr.m_isPracticeMode mem).1 w.fields).1 ∧
    (∀ reads : Nat → Int,
      (rl_loop { fr with py_writing_reads := reads } w).world = (rl_loop fr w).world ∧
      (rl_loop { fr with py_writing_reads := reads } w).calls = (rl_loop fr w).calls ∧
      (rl_loop { fr with py_writing_reads := reads } w).cpp_writing_stores =
        (rl_loop fr w).cpp_writing_stores) := by
  have hw := rl_loop_write fr w player mem hp hm hr
  have hs : (rl_loop fr w).spins = spinFrom fr.py_writing_reads 0 := by rw [hw]
  refine ⟨hs, ?_, ?_, ?_, ?_, ?_, ?_⟩
  · rw [hs]; exact spinFrom_le _ 5000 0 rfl (Nat.zero_le _)
  · intro k hk hne hall
    rw [hs]
    have := spinFrom_first fr.py_writing_reads k 0 (by omega) (by rw [Nat.zero_add]; exact hne)
      (fun j _ hj => hall j (by omega))
    rw [this, Nat.zero_add]
  · intro hall
    rw [hs]
    exact spinFrom_cap _ 5000 0 rfl (Nat.zero_le _) (fun j _ hj => hall j hj)
  · rw [hw]
  · rw [hw]
  · intro reads
    rw [hw, rl_loop_write { fr with py_writing_reads := reads } w player mem hp hm hr]
    exact ⟨rfl, rfl, rfl⟩

/-- C10 on the sample frame with a consumer whose flag reads 1 forever: the
wait ends after 5000 iterations and the cycle writes the snapshot. -/
theorem C10_bounded_wait_witness :
    ((rl_loop { sampleFrame with py_writing_reads := fun _ => 1 } sampleWorld).spins = 5000 ∧
      (rl_loop { sampleFrame with py_writing_reads := fun _ => 1 }
        sampleWorld).cpp_writing_stores = [1, 0]) ∧
    (rl_loop { sampleFrame with py_writing_reads := fun k => if k < 3 then 1 else 0 }
      sampleWorld).spins = 3 ∧
    (rl_loop { sampleFrame with py_writing_reads := fun _ => 1 } sampleWorld).world.pSharedMem.map
        (fun m => (m.cpp_writing, m.player_x, m.percent, m.dist_nearest_hazard)) =
      some (0, 100, 10, 30) :=
  ⟨⟨(C10_bounded_wait { sampleFrame with py_writing_reads := fun _ => 1 } sampleWorld
        samplePlayer zeroMem rfl rfl (by decide)).2.2.2.1 (fun _ _ => rfl),
      (C10_bounded_wait { sampleFrame with py_writing_reads := fun _ => 1 } sampleWorld
        samplePlayer zeroMem rfl rfl (by decide)).2.2.2.2.1⟩,
    (C10_bounded_wait { sampleFrame with py_writing_reads := fun k => if k < 3 then 1 else 0 }
        sampleWorld samplePlayer zeroMem rfl rfl (by decide)).2.2.1 3 (by decide) (by decide)
        (fun j hj => by simp [hj]),
    by decide!⟩

/-! ### Terminal and dead flags -/

theorem boolToInt_eq_one (b : Bool) : boolToInt b = 1 ↔ b = true := by
  cases b <;> simp [boolToInt]

theorem boolToInt_eq_zero (b : Bool) : boolToInt b = 0 ↔ b = false := by
  cases b <;> simp [boolToInt]

theorem writeSnapshot_is_dead (fr : Frame) (player : PlayerObject) (mem : SharedState)
    (f : Fields) :
    (writeSnapshot fr player mem f).1.is_dead =
      boolToInt (player.m_isDead ||
        decide ((writeSnapshot fr player mem f).2.m_stuckFrames > 30)) := rfl

/-- C11: in a cycle that writes the snapshot, `is_terminal` is 1 exactly when
the simulation reports death, or the stuck counter as updated by this cycle
exceeds 30, or the percent is at least 100, and 0 otherwise; `is_dead` is 1
exactly when the simulation reports death or the counter exceeds 30, and 0
otherwise; hence `is_dead = 1` implies `is_terminal = 1`. -/
theorem C11_terminal_and_dead_flags (fr : Frame) (w : World) (player : PlayerObject)
    (mem : SharedState) (hp : fr.m_player1 = some player) (hm : w.pSharedMem = some mem)
    (hr : mem.reset_command ≠ 1) :
    ∃ out, (rl_loop fr w).world.pSharedMem = some out ∧
      (out.is_terminal = 1 ↔
        (player.m_isDead = true ∨ (rl_loop fr w).world.fields.m_stuckFrames > 30 ∨
          out.percent ≥ 100)) ∧
      (out.is_terminal = 0 ↔
        ¬ (player.m_isDead = true ∨ (rl_loop fr w).world.fields.m_stuckFrames > 30 ∨
          out.percent ≥ 100)) ∧
      (out.is_dead = 1 ↔
        (player.m_isDead = true ∨ (rl_loop fr w).world.fields.m_stuckFrames > 30)) ∧
      (out.is_dead = 0 ↔
        ¬ (player.m_isDead = true ∨ (rl_loop fr w).world.fields.m_stuckFrames > 30)) ∧
      (out.is_dead = 1 → out.is_terminal = 1) := by
  obtain ⟨hf, _, _⟩ := rl_loop_fields fr w player mem hp hm hr
  refine ⟨_, rl_loop_mem fr w player mem hp hm hr, ?_, ?_, ?_, ?_, ?_⟩
  · rw [writeSnapshot_is_terminal, boolToInt_eq_one, hf]
    simp only [Bool.or_eq_true, decide_eq_true_eq, or_assoc]
  · rw [writeSnapshot_is_terminal, boolToInt_eq_zero, hf]
    simp only [Bool.or_eq_false_iff, decide_eq_false_iff_not, not_or, Bool.not_eq_true,
      and_assoc]
  · rw [writeSnapshot_is_dead, boolToInt_eq_one, hf]
    simp only [Bool.or_eq_true, decide_eq_true_eq]
  · rw [writeSnapshot_is_dead, boolToInt_eq_zero, hf]
    simp only [Bool.or_eq_false_iff, decide_eq_false_iff_not, not_or, Bool.not_eq_true]
  · rw [writeSnapshot_is_dead, writeSnapshot_is_terminal, boolToInt_eq_one, boolToInt_eq_one]
    intro h
    rw [h]
    rfl

/-- C11 on the sample frame (alive, counter 1 after the update, percent 10:
both flags 0) and on the same frame with the simulation reporting death (both
flags 1). -/
theorem C11_terminal_and_dead_flags_witness :
    (∃ out, (rl_loop sampleFrame stuckWorld).world.pSharedMem = some out ∧
      (out.is_terminal = 1 ↔
        (samplePlayer.m_isDead = true ∨
          (rl_loop sampleFrame stuckWorld).world.fields.m_stuckFrames > 30 ∨
          out.percent ≥ 100)) ∧
      (out.is_terminal = 0 ↔
        ¬ (samplePlayer.m_isDead = true ∨
          (rl_loop sampleFrame stuckWorld).world.fields.m_stuckFrames > 30 ∨
          out.percent ≥ 100)) ∧
      (out.is_dead = 1 ↔
        (samplePlayer.m_isDead = true ∨
          (rl_loop sampleFrame stuckWorld).world.fields.m_stuckFrames > 30)) ∧
      (out.is_dead = 0 ↔
        ¬ (samplePlayer.m_isDead = true ∨
          (rl_loop sampleFrame stuckWorld).world.fields.m_stuckFrames > 30)) ∧
      (out.is_dead = 1 → out.is_terminal = 1)) ∧
    ((rl_loop sampleFrame stuckWorld).world.pSharedMem.map
        (fun m => (m.is_dead, m.is_terminal)) = some (0, 0) ∧
      (rl_loop sampleFrame stuckWorld).world.fields.m_stuckFrames = 1) ∧
    (rl_loop { sampleFrame with m_player1 := some { samplePlayer with m_isDead := true } }
        stuckWorld).world.pSharedMem.map (fun m => (m.is_dead, m.is_terminal)) =
      some (1, 1) ∧
    (rl_loop sampleFrame stuckDeadWorld).world.pSharedMem.map
        (fun m => (m.is_dead, m.is_terminal)) = some (1, 1) ∧
    (rl_loop { sampleFrame with m_levelLength := 100 } sampleWorld).world.pSharedMem.map
        (fun m => (m.is_dead, m.is_terminal, m.percent)) = some (0, 1, 100) :=
  ⟨C11_terminal_and_dead_flags sampleFrame stuckWorld samplePlayer zeroMem rfl rfl (by decide),
    by decide!, by decide!, by decide!, by decide!⟩

/-! ### Velocity and percent -/

theorem writeSnapshot_player_vel_x (fr : Frame) (player : PlayerObject) (mem : SharedState)
    (f : Fields) :
    (writeSnapshot fr player mem f).1.player_vel_x =
      realVelX fr.dt player.position_x f.m_lastX := rfl

theorem writeSnapshot_lastX (fr : Frame) (player : PlayerObject) (mem : SharedState)
    (f : Fields) : (writeSnapshot fr player mem f).2.m_lastX = player.position_x := rfl

/-- C12: in a cycle that writes the snapshot, over exact rational arithmetic,
`player_vel_x = (current_x - last_x) / dt` when `dt > 1e-4` and 0 otherwise,
`last_x` becomes `current_x` in both cases, and
`percent = (player_x / level_length) * 100` when `level_length > 0` and 0
otherwise. -/
theorem C12_velocity_and_percent (fr : Frame) (w : World) (player : PlayerObject)
    (mem : SharedState) (hp : fr.m_player1 = some player) (hm : w.pSharedMem = some mem)
    (hr : mem.reset_command ≠ 1) :
    ∃ out, (rl_loop fr w).world.pSharedMem = some out ∧
      (fr.dt > 1 / 10000 →
        out.player_vel_x = (player.position_x - w.fields.m_lastX) / fr.dt) ∧
      (¬ fr.dt > 1 / 10000 → out.player_vel_x = 0) ∧
      (rl_loop fr w).world.fields.m_lastX = player.position_x ∧
      (fr.m_levelLength > 0 →
        out.percent = (player.position_x / fr.m_levelLength) * 100) ∧
      (¬ fr.m_levelLength > 0 → out.percent = 0) := by
  obtain ⟨_, _, hx⟩ := rl_loop_fields fr w player mem hp hm hr
  refine ⟨_, rl_loop_mem fr w player mem hp hm hr, ?_, ?_, ?_, ?_, ?_⟩
  · intro h
    rw [writeSnapshot_player_vel_x, realVelX, if_pos h]
  · intro h
    rw [writeSnapshot_player_vel_x, realVelX, if_neg h]
  · rw [hx, writeSnapshot_lastX]
  · intro h
    rw [writeSnapshot_percent, currentPct, if_pos h]
  · intro h
    rw [writeSnapshot_percent, currentPct, if_neg h]

/-- C12 on the scenario `x = 100`, `level_length = 1000`, `last_x = 90`,
`dt = 0.016`: velocity 625 and percent 10; with `dt = 0` and a level of length
0 both are 0, and `last_x` becomes 100 either way. -/
theorem C12_velocity_and_percent_witness :
    (∃ out, (rl_loop sampleFrame sampleWorld).world.pSharedMem = some out ∧
      (sampleFrame.dt > 1 / 10000 →
        out.player_vel_x = (samplePlayer.position_x - sampleWorld.fields.m_lastX) /
          sampleFrame.dt) ∧
      (¬ sampleFrame.dt > 1 / 10000 → out.player_vel_x = 0) ∧
      (rl_loop sampleFrame sampleWorld).world.fields.m_lastX = samplePlayer.position_x ∧
      (sampleFrame.m_levelLength > 0 →
        out.percent = (samplePlayer.position_x / sampleFrame.m_levelLength) * 100) ∧
      (¬ sampleFrame.m_levelLength > 0 → out.percent = 0)) ∧
    ((samplePlayer.position_x, sampleFrame.m_levelLength, sampleWorld.fields.m_lastX,
        sampleFrame.dt) = (100, 1000, 90, 16 / 1000) ∧
      (rl_loop sampleFrame sampleWorld).world.pSharedMem.map
        (fun m => (m.player_vel_x, m.percent)) = some (625, 10) ∧
      (rl_loop sampleFrame sampleWorld).world.fields.m_lastX = 100) ∧
    ((rl_loop { sampleFrame with dt := 0, m_levelLength := 0 } sampleWorld).world.pSharedMem.map
        (fun m => (m.player_vel_x, m.percent)) = some (0, 0) ∧
      (rl_loop { sampleFrame with dt := 0, m_levelLength := 0 }
        sampleWorld).world.fields.m_lastX = 100) :=
  ⟨C12_velocity_and_percent sampleFrame sampleWorld samplePlayer zeroMem rfl rfl (by decide),
    by decide!, by decide!⟩

/-! ### The checkpoint command -/

theorem handleCheckpoint_pending (practice : Bool) (mem : SharedState)
    (hc : mem.checkpoint_command = 1) :
    (handleCheckpoint practice mem).1 = { mem with checkpoint_command := 0 } ∧
      ((handleCheckpoint practice mem).2.map Prod.fst).count HostCall.createCheckpoint =
        (if practice = true then 1 else 0) := by
  unfold handleCheckpoint
  rw [if_pos hc]
  cases practice <;> exact ⟨rfl, rfl⟩

theorem applyAction_no_checkpoint (cmd : Int) (holding : Bool) :
    (applyAction cmd holding).2.count HostCall.createCheckpoint = 0 := by
  unfold applyAction
  split_ifs <;> rfl

theorem writeSnapshot_checkpoint_command (fr : Frame) (player : PlayerObject)
    (mem : SharedState) (f : Fields) :
    (writeSnapshot fr player mem f).1.checkpoint_command = mem.checkpoint_command := rfl

/-- C13: a cycle (region attached, player present) entered with
`checkpoint_command = 1` and `reset_command ≠ 1` ends with
`checkpoint_command = 0`, calls `createCheckpoint` exactly once in practice mode
and not at all otherwise, and in both cases goes on to lock, write the
snapshot and unlock. -/
theorem C13_checkpoint_one_shot (fr : Frame) (w : World) (player : PlayerObject)
    (mem : SharedState) (hp : fr.m_player1 = some player) (hm : w.pSharedMem = some mem)
    (hr : mem.reset_command ≠ 1) (hc : mem.checkpoint_command = 1) :
    ∃ out, (rl_loop fr w).world.pSharedMem = some out ∧
      out.checkpoint_command = 0 ∧
      ((rl_loop fr w).calls.map Prod.fst).count HostCall.createCheckpoint =
        (if fr.m_isPracticeMode = true then 1 else 0) ∧
      (rl_loop fr w).cpp_writing_stores = [1, 0] ∧
      out = (writeSnapshot fr player { mem with checkpoint_command := 0 } w.fields).1 := by
  obtain ⟨h1, h2⟩ := handleCheckpoint_pending fr.m_isPracticeMode mem hc
  have hw := rl_loop_write fr w player mem hp hm hr
  refine ⟨_, rl_loop_mem fr w player mem hp hm hr, ?_, ?_, ?_, ?_⟩
  · rw [writeSnapshot_checkpoint_command, h1]
  · rw [hw]
    simp only [List.map_append, List.count_append, List.map_map]
    have hid : (Prod.fst ∘ fun c =>
        (c, (writeSnapshot fr player (handleCheckpoint fr.m_isPracticeMode mem).1
          w.fields).1)) = (id : HostCall → HostCall) := rfl
    rw [hid, List.map_id, h2, applyAction_no_checkpoint, Nat.add_zero]
  · rw [hw]
  · rw [h1]

/-- C13 on the sample frame with a checkpoint request pending, outside and
inside practice mode. -/
theorem C13_checkpoint_one_shot_witness :
    (∃ out, (rl_loop sampleFrame checkpointWorld).world.pSharedMem = some out ∧
      out.checkpoint_command = 0 ∧
      ((rl_loop sampleFrame checkpointWorld).calls.map Prod.fst).count
          HostCall.createCheckpoint =
        (if sampleFrame.m_isPracticeMode = true then 1 else 0) ∧
      (rl_loop sampleFrame checkpointWorld).cpp_writing_stores = [1, 0] ∧
      out = (writeSnapshot sampleFrame samplePlayer
        { ({ zeroMem with checkpoint_command := 1 } : SharedState) with
          checkpoint_command := 0 } checkpointWorld.fields).1) ∧
    ((rl_loop sampleFrame checkpointWorld).calls.map Prod.fst = [] ∧
      (rl_loop sampleFrame checkpointWorld).world.pSharedMem.map
        (fun m => (m.checkpoint_command, m.player_x, m.percent)) = some (0, 100, 10)) ∧
    ((rl_loop { sampleFrame with m_isPracticeMode := true } checkpointWorld).calls.map Prod.fst =
        [HostCall.createCheckpoint] ∧
      (rl_loop { sampleFrame with m_isPracticeMode := true } checkpointWorld).world.pSharedMem.map
        (fun m => (m.checkpoint_command, m.player_x, m.percent)) = some (0, 100, 10)) :=
  ⟨C13_checkpoint_one_shot sampleFrame checkpointWorld samplePlayer
      { zeroMem with checkpoint_command := 1 } rfl rfl (by decide) rfl,
    by decide!, by decide!⟩

/-! ### Frame effects of a cycle -/

theorem writeSnapshot_snapshotOf (fr : Frame) (player : PlayerObject) (mem mem' : SharedState)
    (f : Fields) :
    snapshotOf (writeSnapshot fr player mem f).1 =
      snapshotOf (writeSnapshot fr player mem' f).1 := rfl

/-- C14: a cycle writes every Snapshot field or none. When it passes the
command phase, the snapshot it leaves does not depend on the previous contents
of the region, so two runs with the same frame and tracker state end with
identical snapshots; when it consumes a reset it leaves the previous snapshot
in place. -/
theorem C14_snapshot_fully_overwritten (fr : Frame) (f : Fields) (player : PlayerObject)
    (mem mem' : SharedState) (hp : fr.m_player1 = some player) :
    (mem.reset_command ≠ 1 → mem'.reset_command ≠ 1 →
      ∃ out out',
        (rl_loop fr { pSharedMem := some mem, fields := f }).world.pSharedMem = some out ∧
        (rl_loop fr { pSharedMem := some mem', fields := f }).world.pSharedMem = some out' ∧
        snapshotOf out = snapshotOf out') ∧
    (mem.reset_command = 1 →
      ∃ out, (rl_loop fr { pSharedMem := some mem, fields := f }).world.pSharedMem = some out ∧
        snapshotOf out = snapshotOf mem) := by
  constructor
  · intro hr hr'
    refine ⟨_, _, rl_loop_mem fr _ player mem hp rfl hr, rl_loop_mem fr _ player mem' hp rfl hr',
      ?_⟩
    exact writeSnapshot_snapshotOf fr player _ _ f
  · intro hr
    refine ⟨{ mem with reset_command := 0 }, ?_, rfl⟩
    rw [rl_loop_reset fr _ player mem hp rfl hr]

/-- C14 on the sample frame, run over the zeroed region and over a region
whose snapshot fields all hold other values: both end with the same snapshot,
none of whose fields kept a stale value. -/
theorem C14_snapshot_fully_overwritten_witness :
    ((zeroMem.reset_command ≠ 1 → staleMem.reset_command ≠ 1 →
      ∃ out out',
        (rl_loop sampleFrame { pSharedMem := some zeroMem, fields := initFields
          }).world.pSharedMem = some out ∧
        (rl_loop sampleFrame { pSharedMem := some staleMem, fields := initFields
          }).world.pSharedMem = some out' ∧
        snapshotOf out = snapshotOf out') ∧
      (zeroMem.reset_command = 1 →
        ∃ out, (rl_loop sampleFrame { pSharedMem := some zeroMem, fields := initFields
          }).world.pSharedMem = some out ∧
          snapshotOf out = snapshotOf zeroMem)) ∧
    (rl_loop sampleFrame { pSharedMem := some staleMem, fields := initFields
        }).world.pSharedMem.map snapshotOf =
      some { player_x := 100, player_y := 105, player_vel_x := 6250, player_vel_y := 0,
             player_rot := 0, gravity := 1, is_on_ground := 1, is_dead := 0, is_terminal := 0,
             percent := 10, dist_nearest_hazard := 30, dist_nearest_solid := 10,
             player_mode := 0, player_speed := 9 / 10,
             objects := [⟨10, 0, 30, 30, 2⟩, ⟨30, 0, 30, 30, 1⟩] ++
               List.replicate 28 ⟨9999, 0, 0, 0, -1⟩ } ∧
    (rl_loop sampleFrame staleResetWorld).world.pSharedMem.map snapshotOf =
      some (snapshotOf staleMem) :=
  ⟨C14_snapshot_fully_overwritten sampleFrame initFields samplePlayer zeroMem staleMem rfl,
    by decide!, by decide!⟩

theorem writeSnapshot_py_writing (fr : Frame) (player : PlayerObject) (mem : SharedState)
    (f : Fields) : (writeSnapshot fr player mem f).1.py_writing = mem.py_writing := rfl

theorem writeSnapshot_cpp_writing (fr : Frame) (player : PlayerObject) (mem : SharedState)
    (f : Fields) : (writeSnapshot fr player mem f).1.cpp_writing = 0 := rfl

theorem handleCheckpoint_py_writing (practice : Bool) (mem : SharedState) :
    (handleCheckpoint practice mem).1.py_writing = mem.py_writing := by
  unfold handleCheckpoint
  split_ifs <;> rfl

/-- The flags across one cycle: `py_writing` is left alone, and `cpp_writing`
is either stored 1 then 0 (ending at 0) or not stored at all (keeping its
value). -/
theorem flags_cycle (fr : Frame) (w : World) (mem : SharedState)
    (hm : w.pSharedMem = some mem) :
    ∃ out, (rl_loop fr w).world.pSharedMem = some out ∧
      out.py_writing = mem.py_writing ∧
      (((rl_loop fr w).cpp_writing_stores = [1, 0] ∧ out.cpp_writing = 0) ∨
        ((rl_loop fr w).cpp_writing_stores = [] ∧ out.cpp_writing = mem.cpp_writing)) := by
  cases hp : fr.m_player1 with
  | none =>
    rw [rl_loop_idle fr w (Or.inl hp)]
    exact ⟨mem, hm, rfl, Or.inr ⟨rfl, rfl⟩⟩
  | some p =>
    by_cases hr : mem.reset_command = 1
    · rw [rl_loop_reset fr w p mem hp hm hr]
      exact ⟨_, rfl, rfl, Or.inr ⟨rfl, rfl⟩⟩
    · rw [rl_loop_write fr w p mem hp hm hr]
      refine ⟨_, rfl, ?_, Or.inl ⟨rfl, rfl⟩⟩
      rw [writeSnapshot_py_writing, handleCheckpoint_py_writing]

theorem flags_run (steps : List Step) :
    ∀ (w : World) (mem : SharedState), w.pSharedMem = some mem → mem.cpp_writing = 0 →
      ∀ r ∈ runCycles steps w, ∃ out, r.world.pSharedMem = some out ∧ out.cpp_writing = 0 := by
  induction steps with
  | nil => intro w mem _ _ r hr; simp [runCycles] at hr
  | cons st rest ih =>
    intro w mem hm h0 r hr
    have hm1 := consume_mem st.consumer w mem hm
    obtain ⟨out, hout, _, hflag⟩ := flags_cycle st.frame (consume st.consumer w) _ hm1
    have hout0 : out.cpp_writing = 0 := by
      rcases hflag with ⟨_, h⟩ | ⟨_, h⟩
      · exact h
      · rw [h]; exact h0
    simp only [runCycles, List.mem_cons] at hr
    rcases hr with rfl | hr
    · exact ⟨out, hout, hout0⟩
    · exact ih _ out hout hout0 r hr

/-- C15: no path through the cycle stores to `consumer_writing`; a cycle
either stores 1 and then 0 into `producer_writing`, leaving it 0, or (on the
early-return paths) does not store to it at all; so from a region whose
`producer_writing` is 0 the flag is 0 after every cycle of every run. -/
theorem C15_flag_discipline (fr : Frame) (w : World) (mem : SharedState) (steps : List Step)
    (hm : w.pSharedMem = some mem) :
    (∃ out, (rl_loop fr w).world.pSharedMem = some out ∧
      out.py_writing = mem.py_writing ∧
      (((rl_loop fr w).cpp_writing_stores = [1, 0] ∧ out.cpp_writing = 0) ∨
        ((rl_loop fr w).cpp_writing_stores = [] ∧ out.cpp_writing = mem.cpp_writing))) ∧
    (mem.cpp_writing = 0 →
      ∀ r ∈ runCycles steps w, ∃ out, r.world.pSharedMem = some out ∧ out.cpp_writing = 0) :=
  ⟨flags_cycle fr w mem hm, fun h0 => flags_run steps w mem hm h0⟩

/-- C15 on the zeroed region: a reset cycle followed by three writing cycles
leaves `producer_writing = 0` after each, with the stores `[]`, `[1, 0]`,
`[1, 0]`, `[1, 0]`. -/
theorem C15_flag_discipline_witness :
    ((∃ out, (rl_loop sampleFrame resetWorld).world.pSharedMem = some out ∧
        out.py_writing = ({ zeroMem with reset_command := 1, is_terminal := 1 } :
          SharedState).py_writing ∧
        (((rl_loop sampleFrame resetWorld).cpp_writing_stores = [1, 0] ∧ out.cpp_writing = 0) ∨
          ((rl_loop sampleFrame resetWorld).cpp_writing_stores = [] ∧
            out.cpp_writing = ({ zeroMem with reset_command := 1, is_terminal := 1 } :
              SharedState).cpp_writing))) ∧
      (({ zeroMem with reset_command := 1, is_terminal := 1 } : SharedState).cpp_writing = 0 →
        ∀ r ∈ runCycles ({ consumer := noWrite, frame := sampleFrame } :: actionSteps [1, 0, 1])
            resetWorld,
          ∃ out, r.world.pSharedMem = some out ∧ out.cpp_writing = 0)) ∧
    (runCycles ({ consumer := noWrite, frame := sampleFrame } :: actionSteps [1, 0, 1])
        resetWorld).map
      (fun r => (r.cpp_writing_stores, r.world.pSharedMem.map (fun m => m.cpp_writing))) =
      [([], some 0), ([1, 0], some 0), ([1, 0], some 0), ([1, 0], some 0)] :=
  ⟨C15_flag_discipline sampleFrame resetWorld
      { zeroMem with reset_command := 1, is_terminal := 1 }
      ({ consumer := noWrite, frame := sampleFrame } :: actionSteps [1, 0, 1]) rfl,
    by decide!⟩

/-- C18 as stated fails for values other than 0 and 1: with
`action_command = 2` and `is_holding = true` the action step emits a release
and clears `is_holding`, where the claim says it emits nothing. -/
theorem C18_release_on_other_values :
    applyAction 2 true = (false, [HostCall.releaseButton]) ∧
    buttonCalls (rl_loop sampleFrame (heldWorld 2)) = [HostCall.releaseButton] ∧
    (heldWorld 2).fields.m_isHolding = true ∧
    (rl_loop sampleFrame (heldWorld 2)).world.fields.m_isHolding = false := by
  decide!

theorem applyAction_cases (cmd : Int) (holding : Bool) :
    (cmd = 1 → holding = false →
      applyAction cmd holding = (true, [HostCall.pushButton])) ∧
    (cmd ≠ 1 → holding = true →
      applyAction cmd holding = (false, [HostCall.releaseButton])) ∧
    (¬ (cmd = 1 ∧ holding = false) → ¬ (cmd ≠ 1 ∧ holding = true) →
      applyAction cmd holding = (holding, [])) := by
  unfold applyAction
  refine ⟨?_, ?_, ?_⟩
  · intro h1 h2
    rw [if_pos h1]
    simp [h2]
  · intro h1 h2
    rw [if_neg h1]
    simp [h2]
  · intro h1 h2
    by_cases hc : cmd = 1
    · have hh : holding = true := by
        cases holding
        · exact absurd ⟨hc, rfl⟩ h1
        · rfl
      rw [if_pos hc]
      simp [hh]
    · have hh : holding = false := by
        cases holding
        · rfl
        · exact absurd ⟨hc, rfl⟩ h2
      rw [if_neg hc]
      simp [hh]

/-- C18, amended: for every integer `action_command` and every `is_holding`,
the action step of a cycle that writes the snapshot emits a press and sets
`is_holding` when `action_command == 1` and `is_holding` is false, emits a
release and clears `is_holding` when `action_command != 1` (0 or any other
value) and `is_holding` is true, and otherwise emits nothing and leaves
`is_holding` unchanged. -/
theorem C18_action_step (fr : Frame) (w : World) (player : PlayerObject) (mem : SharedState)
    (hp : fr.m_player1 = some player) (hm : w.pSharedMem = some mem)
    (hr : mem.reset_command ≠ 1) :
    (mem.action_command = 1 → w.fields.m_isHolding = false →
      buttonCalls (rl_loop fr w) = [HostCall.pushButton] ∧
        (rl_loop fr w).world.fields.m_isHolding = true) ∧
    (mem.action_command ≠ 1 → w.fields.m_isHolding = true →
      buttonCalls (rl_loop fr w) = [HostCall.releaseButton] ∧
        (rl_loop fr w).world.fields.m_isHolding = false) ∧
    (¬ (mem.action_command = 1 ∧ w.fields.m_isHolding = false) →
      ¬ (mem.action_command ≠ 1 ∧ w.fields.m_isHolding = true) →
      buttonCalls (rl_loop fr w) = [] ∧
        (rl_loop fr w).world.fields.m_isHolding = w.fields.m_isHolding) := by
  obtain ⟨hh, hc⟩ := action_cycle fr w player mem hp hm hr
  obtain ⟨c1, c2, c3⟩ := applyAction_cases mem.action_command w.fields.m_isHolding
  refine ⟨?_, ?_, ?_⟩
  · intro h1 h2
    rw [hc, hh, c1 h1 h2]
    exact ⟨rfl, rfl⟩
  · intro h1 h2
    rw [hc, hh, c2 h1 h2]
    exact ⟨rfl, rfl⟩
  · intro h1 h2
    rw [hc, hh, c3 h1 h2]
    exact ⟨rfl, rfl⟩

/-- C18 amended, on the sample frame: a press from `(1, not holding)`, a
release from `(0, holding)`, nothing from `(1, holding)` and `(0, not
holding)`, and nothing from `(7, not holding)`. -/
theorem C18_action_step_witness :
    (buttonCalls (rl_loop sampleFrame
        { pSharedMem := some { zeroMem with action_command := 1 }, fields := initFields }) =
        [HostCall.pushButton] ∧
      (rl_loop sampleFrame
        { pSharedMem := some { zeroMem with action_command := 1 }, fields := initFields
          }).world.fields.m_isHolding = true) ∧
    (buttonCalls (rl_loop sampleFrame (heldWorld 0)) = [HostCall.releaseButton] ∧
      (rl_loop sampleFrame (heldWorld 0)).world.fields.m_isHolding = false) ∧
    (buttonCalls (rl_loop sampleFrame (heldWorld 1)) = [] ∧
      (rl_loop sampleFrame (heldWorld 1)).world.fields.m_isHolding =
        (heldWorld 1).fields.m_isHolding) ∧
    (buttonCalls (rl_loop sampleFrame sampleWorld) = [] ∧
      (rl_loop sampleFrame sampleWorld).world.fields.m_isHolding = false) ∧
    (buttonCalls (rl_loop sampleFrame
        { pSharedMem := some { zeroMem with action_command := 7 }, fields := initFields }) =
        [] ∧
      (rl_loop sampleFrame
        { pSharedMem := some { zeroMem with action_command := 7 }, fields := initFields
          }).world.fields.m_isHolding = false) :=
  ⟨(C18_action_step sampleFrame
        { pSharedMem := some { zeroMem with action_command := 1 }, fields := initFields }
        samplePlayer { zeroMem with action_command := 1 } rfl rfl (by decide)).1 rfl rfl,
    (C18_action_step sampleFrame (heldWorld 0) samplePlayer
        { zeroMem with action_command := 0 } rfl rfl (by decide)).2.1 (by decide) rfl,
    (C18_action_step sampleFrame (heldWorld 1) samplePlayer
        { zeroMem with action_command := 1 } rfl rfl (by decide)).2.2 (by decide) (by decide),
    by decide!, by decide!⟩

/-- C20: a cycle entered with `reset_command = 1` writes no Snapshot field,
makes no store to `producer_writing`, leaves `consumer_writing`,
`checkpoint_command` and `action_command` as they were, leaves `last_x`,
`last_percent` and `is_holding` unchanged and emits no press or release; with
a player present it clears `reset_command`, zeroes the stuck counter and calls
the level reset, and does nothing else. -/
theorem C20_reset_cycle_frame (fr : Frame) (w : World) (mem : SharedState)
    (hm : w.pSharedMem = some mem) (hr : mem.reset_command = 1) :
    (∃ out, (rl_loop fr w).world.pSharedMem = some out ∧
      snapshotOf out = snapshotOf mem ∧
      out.cpp_writing = mem.cpp_writing ∧
      out.py_writing = mem.py_writing ∧
      out.checkpoint_command = mem.checkpoint_command ∧
      out.action_command = mem.action_command ∧
      (∀ player, fr.m_player1 = some player → out.reset_command = 0)) ∧
    (rl_loop fr w).cpp_writing_stores = [] ∧
    (rl_loop fr w).world.fields.m_lastX = w.fields.m_lastX ∧
    (rl_loop fr w).world.fields.m_lastPercent = w.fields.m_lastPercent ∧
    (rl_loop fr w).world.fields.m_isHolding = w.fields.m_isHolding ∧
    (rl_loop fr w).world.fields.m_showDebug = w.fields.m_showDebug ∧
    buttonCalls (rl_loop fr w) = [] ∧
    (∀ player, fr.m_player1 = some player →
      (rl_loop fr w).world.fields.m_stuckFrames = 0 ∧
        (rl_loop fr w).calls.map Prod.fst = [HostCall.resetLevel]) := by
  cases hp : fr.m_player1 with
  | none =>
    rw [rl_loop_idle fr w (Or.inl hp)]
    refine ⟨⟨mem, hm, rfl, rfl, rfl, rfl, rfl, ?_⟩, rfl, rfl, rfl, rfl, rfl, rfl, ?_⟩
    · intro player h; exact absurd h (by simp)
    · intro player h; exact absurd h (by simp)
  | some p =>
    rw [rl_loop_reset fr w p mem hp hm hr]
    exact ⟨⟨_, rfl, rfl, rfl, rfl, rfl, rfl, fun _ _ => rfl⟩, rfl, rfl, rfl, rfl, rfl, rfl,
      fun _ _ => ⟨rfl, rfl⟩⟩

/-- C20 on a region holding an older snapshot with `is_terminal = 1`, a
checkpoint request pending and the button held while `action_command = 0`:
after the reset cycle only `reset_command` and the stuck counter differ. -/
theorem C20_reset_cycle_frame_witness :
    ((∃ out, (rl_loop sampleFrame staleResetWorld).world.pSharedMem = some out ∧
        snapshotOf out = snapshotOf
          staleResetMem ∧
        out.cpp_writing = staleResetMem.cpp_writing ∧
        out.py_writing = staleResetMem.py_writing ∧
        out.checkpoint_command = staleResetMem.checkpoint_command ∧
        out.action_command = staleResetMem.action_command ∧
        (∀ player, sampleFrame.m_player1 = some player → out.reset_command = 0)) ∧
      (rl_loop sampleFrame staleResetWorld).cpp_writing_stores = [] ∧
      (rl_loop sampleFrame staleResetWorld).world.fields.m_lastX =
        staleResetWorld.fields.m_lastX ∧
      (rl_loop sampleFrame staleResetWorld).world.fields.m_lastPercent =
        staleResetWorld.fields.m_lastPercent ∧
      (rl_loop sampleFrame staleResetWorld).world.fields.m_isHolding =
        staleResetWorld.fields.m_isHolding ∧
      (rl_loop sampleFrame staleResetWorld).world.fields.m_showDebug =
        staleResetWorld.fields.m_showDebug ∧
      buttonCalls (rl_loop sampleFrame staleResetWorld) = [] ∧
      (∀ player, sampleFrame.m_player1 = some player →
        (rl_loop sampleFrame staleResetWorld).world.fields.m_stuckFrames = 0 ∧
          (rl_loop sampleFrame staleResetWorld).calls.map Prod.fst = [HostCall.resetLevel])) ∧
    (rl_loop sampleFrame staleResetWorld).world =
      { pSharedMem := some { staleResetMem with reset_command := 0 },
        fields := { staleResetWorld.fields with m_stuckFrames := 0 } } ∧
    (rl_loop sampleFrame staleResetWorld).world.pSharedMem.map
        (fun m => (m.is_terminal, m.checkpoint_command)) = some (1, 1) :=
  ⟨C20_reset_cycle_frame sampleFrame staleResetWorld
      staleResetMem rfl rfl,
    by decide!, by decide!⟩

/-! ### The slot table in terms of the retained objects -/

theorem insertOrdered_map_collect (pRect : CCRect) (x : GameObject) (l : List GameObject) :
    insertOrdered dxLess (collect pRect x) (l.map (collect pRect)) =
      (insertOrdered (objLess pRect) x l).map (collect pRect) := by
  induction l with
  | nil => rfl
  | cons y ys ih =>
    simp only [List.map_cons, insertOrdered]
    have hless : dxLess (collect pRect y) (collect pRect x) = objLess pRect y x := rfl
    rw [hless]
    cases objLess pRect y x
    · simp
    · simp [ih]

theorem stdSort_map_collect (pRect : CCRect) (l : List GameObject) :
    stdSort dxLess (l.map (collect pRect)) = (stdSort (objLess pRect) l).map (collect pRect) := by
  induction l with
  | nil => rfl
  | cons x xs ih =>
    simp only [List.map_cons, stdSort, ih, insertOrdered_map_collect]

theorem sorted_scan_eq (pRect : CCRect) (objs : List (Option GameObject)) :
    stdSort dxLess (scanObjects pRect objs).nearbyObjects =
      (sortedRetained pRect objs).map (collect pRect) := by
  rw [scanObjects_nearbyObjects, stdSort_map_collect, sortedRetained]

theorem sortedRetained_perm (pRect : CCRect) (objs : List (Option GameObject)) :
    (sortedRetained pRect objs).Perm (retainedObjects pRect objs) :=
  stdSort_perm _ _

theorem sortedRetained_length (pRect : CCRect) (objs : List (Option GameObject)) :
    (sortedRetained pRect objs).length = (retainedObjects pRect objs).length :=
  (sortedRetained_perm pRect objs).length_eq

theorem sortedRetained_pairwise (pRect : CCRect) (objs : List (Option GameObject)) :
    (sortedRetained pRect objs).Pairwise (fun a b => offsetX pRect a ≤ offsetX pRect b) := by
  have h := stdSort_dx_pairwise ((retainedObjects pRect objs).map (collect pRect))
  rw [stdSort_map_collect, List.pairwise_map] at h
  exact h

theorem sortedRetained_le (pRect : CCRect) (objs : List (Option GameObject)) (i j : Nat)
    (hij : i ≤ j) (hj : j < (sortedRetained pRect objs).length) :
    offsetX pRect ((sortedRetained pRect objs).get ⟨i, lt_of_le_of_lt hij hj⟩) ≤
      offsetX pRect ((sortedRetained pRect objs).get ⟨j, hj⟩) := by
  rcases Nat.eq_or_lt_of_le hij with rfl | hlt
  · exact le_refl _
  · exact List.pairwise_iff_get.1 (sortedRetained_pairwise pRect objs) ⟨i, _⟩ ⟨j, hj⟩ hlt

theorem mem_retainedObjects (pRect : CCRect) (objs : List (Option GameObject))
    (g : GameObject) :
    g ∈ retainedObjects pRect objs ↔ some g ∈ objs ∧ isRetained pRect g = true := by
  simp [retainedObjects, List.mem_filter, List.mem_filterMap]

theorem mem_sortedRetained (pRect : CCRect) (objs : List (Option GameObject))
    (g : GameObject) :
    g ∈ sortedRetained pRect objs ↔ some g ∈ objs ∧ isRetained pRect g = true := by
  rw [(sortedRetained_perm pRect objs).mem_iff, mem_retainedObjects]

theorem slotOf_collect (pRect : CCRect) (g : GameObject) :
    slotOf (collect pRect g) = slotFor pRect g := rfl

/-- What the slot at index `i` holds after a cycle: the object of rank `i`
when there is one among the first 30, the padding otherwise. -/
theorem slot_cases (pRect : CCRect) (objs : List (Option GameObject)) (i : Nat)
    (s : ObjectData)
    (h : (writeObjects (stdSort dxLess (scanObjects pRect objs).nearbyObjects))[i]? = some s) :
    i < 30 ∧
      ((∃ hi : i < (sortedRetained pRect objs).length,
          s = slotFor pRect ((sortedRetained pRect objs).get ⟨i, hi⟩)) ∨
        ((sortedRetained pRect objs).length ≤ i ∧ s = paddingSlot)) := by
  have h30 : i < 30 := by
    have := (List.getElem?_eq_some.1 h).1
    rw [writeObjects_length] at this
    exact this
  refine ⟨h30, ?_⟩
  rw [sorted_scan_eq] at h
  by_cases hi : i < (sortedRetained pRect objs).length
  · left
    refine ⟨hi, ?_⟩
    have hi' : i < ((sortedRetained pRect objs).map (collect pRect)).length := by
      rw [List.length_map]; exact hi
    rw [writeObjects_populated _ i hi' h30, Option.some.injEq] at h
    rw [← h]
    simp [slotOf_collect]
  · right
    have hge : ((sortedRetained pRect objs).map (collect pRect)).length ≤ i := by
      rw [List.length_map]; exact not_lt.1 hi
    rw [writeObjects_padding _ i hge h30, Option.some.injEq] at h
    exact ⟨not_lt.1 hi, h.symm⟩

theorem slot_populated (pRect : CCRect) (objs : List (Option GameObject)) (i : Nat)
    (hi : i < (sortedRetained pRect objs).length) (h30 : i < 30) :
    (writeObjects (stdSort dxLess (scanObjects pRect objs).nearbyObjects))[i]? =
      some (slotFor pRect ((sortedRetained pRect objs).get ⟨i, hi⟩)) := by
  rw [sorted_scan_eq]
  have hi' : i < ((sortedRetained pRect objs).map (collect pRect)).length := by
    rw [List.length_map]; exact hi
  rw [writeObjects_populated _ i hi' h30]
  simp [slotOf_collect]

/-- The category code of a classified object. -/
theorem classified_code (g : GameObject) (h : isClassified g = true) :
    (g.m_objectType = GameObjectType.Hazard ∧
        categoryToInt (getObjectCategory (some g)) = 1) ∨
      (g.m_objectType = GameObjectType.Solid ∧
        categoryToInt (getObjectCategory (some g)) = 2) ∨
      (g.m_objectType ≠ GameObjectType.Hazard ∧ g.m_objectType ≠ GameObjectType.Solid ∧
        categoryToInt (getObjectCategory (some g)) = 5) := by
  simp only [isClassified, decide_eq_true_eq] at h
  by_cases hH : g.m_objectType = GameObjectType.Hazard
  · left
    refine ⟨hH, ?_⟩
    rw [getObjectCategory_hazard g hH]; decide
  · by_cases hS : g.m_objectType = GameObjectType.Solid
    · right; left
      refine ⟨hS, ?_⟩
      rw [getObjectCategory_solid g hS]; decide
    · right; right
      rcases h with h | h | h
      · exact absurd h hH
      · exact absurd h hS
      · exact ⟨hH, hS, categoryToInt_portal_of_id g hH hS h⟩

theorem retained_facts (pRect : CCRect) (g : GameObject) (h : isRetained pRect g = true) :
    isClassified g = true ∧ -50 ≤ offsetX pRect g ∧ offsetX pRect g ≤ 800 := by
  simpa [isRetained] using h

theorem isMinOrSentinel_range (t : GameObjectType) (pRect : CCRect)
    (objs : List (Option GameObject)) (r : ℚ)
    (h : IsMinOrSentinel (forwardDx t pRect objs) r) : r = 9999 ∨ (0 < r ∧ r ≤ 800) := by
  rcases h with ⟨_, h⟩ | ⟨h, _⟩
  · left; exact h
  · right; exact mem_forwardDx t pRect objs r h

/-- C16: in every written snapshot each slot's category is 1, 2, 5 or -1 (never
0); a slot is a padding slot (index at least `k = min(retained, 30)`) if and
only if its category is -1, if and only if its `offset_x` is 9999; every
populated slot has `-50 ≤ offset_x ≤ 800`; and each nearest distance is either
exactly 9999 or lies in `(0, 800]`. -/
theorem C16_sentinel_never_legitimate (fr : Frame) (w : World) (player : PlayerObject)
    (mem : SharedState) (hp : fr.m_player1 = some player) (hm : w.pSharedMem = some mem)
    (hr : mem.reset_command ≠ 1) :
    ∃ out, (rl_loop fr w).world.pSharedMem = some out ∧
      (∀ i s, out.objects[i]? = some s →
        (s.type = 1 ∨ s.type = 2 ∨ s.type = 5 ∨ s.type = -1) ∧
        (min (retainedObjects player.objectRect fr.m_objects).length 30 ≤ i ↔ s.type = -1) ∧
        (s.type = -1 ↔ s.dx = 9999) ∧
        (i < min (retainedObjects player.objectRect fr.m_objects).length 30 →
          -50 ≤ s.dx ∧ s.dx ≤ 800)) ∧
      (out.dist_nearest_hazard = 9999 ∨
        (0 < out.dist_nearest_hazard ∧ out.dist_nearest_hazard ≤ 800)) ∧
      (out.dist_nearest_solid = 9999 ∨
        (0 < out.dist_nearest_solid ∧ out.dist_nearest_solid ≤ 800)) := by
  refine ⟨_, rl_loop_mem fr w player mem hp hm hr, ?_, ?_, ?_⟩
  · intro i s hs
    rw [writeSnapshot_objects] at hs
    obtain ⟨h30, hcase⟩ := slot_cases player.objectRect fr.m_objects i s hs
    have hlen := sortedRetained_length player.objectRect fr.m_objects
    rcases hcase with ⟨hi, hsg⟩ | ⟨hge, hpad⟩
    · have hmem : (sortedRetained player.objectRect fr.m_objects).get ⟨i, hi⟩ ∈
          sortedRetained player.objectRect fr.m_objects := List.get_mem _ _ _
      obtain ⟨hcl, hlo, hhi⟩ := retained_facts _ _
        ((mem_sortedRetained _ _ _).1 hmem).2
      have hik : i < min (retainedObjects player.objectRect fr.m_objects).length 30 := by
        rw [← hlen]; exact lt_min hi h30
      have hdx : s.dx = offsetX player.objectRect
          ((sortedRetained player.objectRect fr.m_objects).get ⟨i, hi⟩) := by rw [hsg]; rfl
      have hty : s.type = categoryToInt (getObjectCategory
          (some ((sortedRetained player.objectRect fr.m_objects).get ⟨i, hi⟩))) := by
        rw [hsg]; rfl
      have hcode : s.type = 1 ∨ s.type = 2 ∨ s.type = 5 := by
        rcases classified_code _ hcl with h | h | h
        · left; rw [hty]; exact h.2
        · right; left; rw [hty]; exact h.2
        · right; right; rw [hty]; exact h.2.2
      have hne : s.type ≠ -1 := by
        rcases hcode with h | h | h <;> rw [h] <;> decide
      have hdx9 : s.dx ≠ 9999 := by
        rw [hdx]; intro h9; rw [h9] at hhi; norm_num at hhi
      refine ⟨?_, ?_, ?_, ?_⟩
      · rcases hcode with h | h | h
        · exact Or.inl h
        · exact Or.inr (Or.inl h)
        · exact Or.inr (Or.inr (Or.inl h))
      · exact ⟨fun h => absurd hik (not_lt.2 h), fun h => absurd h hne⟩
      · exact ⟨fun h => absurd h hne, fun h => absurd h hdx9⟩
      · intro _; rw [hdx]; exact ⟨hlo, hhi⟩
    · have hki : min (retainedObjects player.objectRect fr.m_objects).length 30 ≤ i := by
        rw [← hlen]; exact le_trans (min_le_left _ _) hge
      rw [hpad]
      refine ⟨Or.inr (Or.inr (Or.inr rfl)), ⟨fun _ => rfl, fun _ => hki⟩,
        ⟨fun _ => rfl, fun _ => rfl⟩, fun h => absurd hki (not_le.2 h)⟩
  · rw [writeSnapshot_hazard]
    exact isMinOrSentinel_range _ _ _ _ (scanObjects_nearestHazard _ _)
  · rw [writeSnapshot_solid]
    exact isMinOrSentinel_range _ _ _ _ (scanObjects_nearestSolid _ _)

/-- C16 on the sample frame: the categories written are 2, 1 and then -1, and
the distances are 30 and 10. -/
theorem C16_sentinel_never_legitimate_witness :
    (∃ out, (rl_loop sampleFrame sampleWorld).world.pSharedMem = some out ∧
      (∀ i s, out.objects[i]? = some s →
        (s.type = 1 ∨ s.type = 2 ∨ s.type = 5 ∨ s.type = -1) ∧
        (min (retainedObjects samplePlayer.objectRect sampleFrame.m_objects).length 30 ≤ i ↔
          s.type = -1) ∧
        (s.type = -1 ↔ s.dx = 9999) ∧
        (i < min (retainedObjects samplePlayer.objectRect sampleFrame.m_objects).length 30 →
          -50 ≤ s.dx ∧ s.dx ≤ 800)) ∧
      (out.dist_nearest_hazard = 9999 ∨
        (0 < out.dist_nearest_hazard ∧ out.dist_nearest_hazard ≤ 800)) ∧
      (out.dist_nearest_solid = 9999 ∨
        (0 < out.dist_nearest_solid ∧ out.dist_nearest_solid ≤ 800))) ∧
    (rl_loop sampleFrame sampleWorld).world.pSharedMem.map
        (fun m => (m.objects.map (fun s => s.type), m.dist_nearest_hazard,
          m.dist_nearest_solid)) =
      some ([2, 1] ++ List.replicate 28 (-1), 30, 10) :=
  ⟨C16_sentinel_never_legitimate sampleFrame sampleWorld samplePlayer zeroMem rfl rfl
      (by decide),
    by decide!⟩

/-- C17: the populated slots are the nearest retained objects by `dx`: there is
a permutation of the retained objects, ordered by ascending `dx`, whose first
`min(|R|, 30)` elements fill the slots in order, each slot carrying its
object's `(dx, dy, width, height, category code)`; every retained object left
out has `dx` at least the `offset_x` of slot 29; and classified objects with
`-50 ≤ dx ≤ 0` are retained and rank before every object with `dx > 0`. -/
theorem C17_slots_are_nearest_retained (fr : Frame) (w : World) (player : PlayerObject)
    (mem : SharedState) (hp : fr.m_player1 = some player) (hm : w.pSharedMem = some mem)
    (hr : mem.reset_command ≠ 1) :
    ∃ (out : SharedState) (sorted : List GameObject),
      (rl_loop fr w).world.pSharedMem = some out ∧
      sorted.Perm (retainedObjects player.objectRect fr.m_objects) ∧
      sorted.Pairwise
        (fun a b => offsetX player.objectRect a ≤ offsetX player.objectRect b) ∧
      (∀ i (hi : i < sorted.length), i < 30 →
        out.objects[i]? = some
          { dx := (sorted.get ⟨i, hi⟩).objectRect.getMinX - player.objectRect.getMaxX,
            dy := (sorted.get ⟨i, hi⟩).objectRect.getMidY - player.objectRect.getMidY,
            w := (sorted.get ⟨i, hi⟩).objectRect.width,
            h := (sorted.get ⟨i, hi⟩).objectRect.height,
            type := categoryToInt (getObjectCategory (some (sorted.get ⟨i, hi⟩))) }) ∧
      (∀ i (hi : i < sorted.length), 30 ≤ i →
        ∃ s29, out.objects[29]? = some s29 ∧
          s29.dx ≤ offsetX player.objectRect (sorted.get ⟨i, hi⟩)) ∧
      (∀ g, some g ∈ fr.m_objects → isClassified g = true →
        -50 ≤ offsetX player.objectRect g → offsetX player.objectRect g ≤ 0 →
        g ∈ sorted) ∧
      (∀ i j (hi : i < sorted.length) (hj : j < sorted.length),
        offsetX player.objectRect (sorted.get ⟨i, hi⟩) ≤ 0 →
        0 < offsetX player.objectRect (sorted.get ⟨j, hj⟩) → i < j) := by
  refine ⟨_, sortedRetained player.objectRect fr.m_objects,
    rl_loop_mem fr w player mem hp hm hr, sortedRetained_perm _ _,
    sortedRetained_pairwise _ _, ?_, ?_, ?_, ?_⟩
  · intro i hi h30
    rw [writeSnapshot_objects, slot_populated _ _ i hi h30]
    rfl
  · intro i hi h30
    have h29 : 29 < (sortedRetained player.objectRect fr.m_objects).length := by omega
    refine ⟨slotFor player.objectRect
      ((sortedRetained player.objectRect fr.m_objects).get ⟨29, h29⟩), ?_, ?_⟩
    · rw [writeSnapshot_objects]
      exact slot_populated _ _ 29 h29 (by norm_num)
    · exact sortedRetained_le _ _ 29 i (by omega) hi
  · intro g hg hcl hlo hhi
    rw [mem_sortedRetained]
    refine ⟨hg, ?_⟩
    simp only [isRetained, hcl, Bool.true_and, decide_eq_true_eq]
    exact ⟨hlo, by linarith⟩
  · intro i j hi hj hile hjpos
    by_contra hnot
    have hji : j ≤ i := not_lt.1 hnot
    have := sortedRetained_le player.objectRect fr.m_objects j i hji hi
    linarith

/-- C17 on the sample frame with one more solid touching the player
(`dx = -5`): it is retained and takes slot 0, before the solid at 10 and the
hazard at 30. -/
theorem C17_slots_are_nearest_retained_witness :
    (∃ (out : SharedState) (sorted : List GameObject),
      (rl_loop { sampleFrame with
          m_objects := sampleObjects ++ [some ⟨1, GameObjectType.Solid, ⟨110, 60, 30, 40⟩⟩] }
        sampleWorld).world.pSharedMem = some out ∧
      sorted.Perm (retainedObjects samplePlayer.objectRect
        (sampleObjects ++ [some ⟨1, GameObjectType.Solid, ⟨110, 60, 30, 40⟩⟩])) ∧
      sorted.Pairwise
        (fun a b => offsetX samplePlayer.objectRect a ≤ offsetX samplePlayer.objectRect b) ∧
      (∀ i (hi : i < sorted.length), i < 30 →
        out.objects[i]? = some
          { dx := (sorted.get ⟨i, hi⟩).objectRect.getMinX - samplePlayer.objectRect.getMaxX,
            dy := (sorted.get ⟨i, hi⟩).objectRect.getMidY - samplePlayer.objectRect.getMidY,
            w := (sorted.get ⟨i, hi⟩).objectRect.width,
            h := (sorted.get ⟨i, hi⟩).objectRect.height,
            type := categoryToInt (getObjectCategory (some (sorted.get ⟨i, hi⟩))) }) ∧
      (∀ i (hi : i < sorted.length), 30 ≤ i →
        ∃ s29, out.objects[29]? = some s29 ∧
          s29.dx ≤ offsetX samplePlayer.objectRect (sorted.get ⟨i, hi⟩)) ∧
      (∀ g, some g ∈ sampleObjects ++ [some ⟨1, GameObjectType.Solid, ⟨110, 60, 30, 40⟩⟩] →
        isClassified g = true →
        -50 ≤ offsetX samplePlayer.objectRect g → offsetX samplePlayer.objectRect g ≤ 0 →
        g ∈ sorted) ∧
      (∀ i j (hi : i < sorted.length) (hj : j < sorted.length),
        offsetX samplePlayer.objectRect (sorted.get ⟨i, hi⟩) ≤ 0 →
        0 < offsetX samplePlayer.objectRect (sorted.get ⟨j, hj⟩) → i < j)) ∧
    (rl_loop { sampleFrame with
        m_objects := sampleObjects ++ [some ⟨1, GameObjectType.Solid, ⟨110, 60, 30, 40⟩⟩] }
      sampleWorld).world.pSharedMem.map (fun m => m.objects.take 4) =
      some [⟨-5, -25, 30, 40, 2⟩, ⟨10, 0, 30, 30, 2⟩, ⟨30, 0, 30, 30, 1⟩,
        ⟨9999, 0, 0, 0, -1⟩] :=
  ⟨C17_slots_are_nearest_retained
      { sampleFrame with
        m_objects := sampleObjects ++ [some ⟨1, GameObjectType.Solid, ⟨110, 60, 30, 40⟩⟩] }
      sampleWorld samplePlayer zeroMem rfl rfl (by decide),
    by decide!⟩

/-! ### Nearest distances against the slot table -/

theorem mem_forwardDx_iff (t : GameObjectType) (pRect : CCRect)
    (objs : List (Option GameObject)) (x : ℚ) :
    x ∈ forwardDx t pRect objs ↔
      ∃ g ∈ sortedRetained pRect objs,
        g.m_objectType = t ∧ 0 < offsetX pRect g ∧ offsetX pRect g = x := by
  simp only [forwardDx, List.mem_map, List.mem_filter, decide_eq_true_eq,
    (sortedRetained_perm pRect objs).mem_iff]
  constructor
  · rintro ⟨g, ⟨hg, ht, hpos⟩, hx⟩
    exact ⟨g, hg, ht, hpos, hx⟩
  · rintro ⟨g, hg, ht, hpos, hx⟩
    exact ⟨g, ⟨hg, ht, hpos⟩, hx⟩

theorem slotFor_code_iff (t : GameObjectType) (code : Int) (pRect : CCRect)
    (objs : List (Option GameObject))
    (hcode : ∀ g, isClassified g = true →
      (categoryToInt (getObjectCategory (some g)) = code ↔ g.m_objectType = t))
    (g : GameObject) (hg : g ∈ sortedRetained pRect objs) :
    (slotFor pRect g).type = code ↔ g.m_objectType = t :=
  hcode g (retained_facts pRect g ((mem_sortedRetained pRect objs g).1 hg).2).1

theorem agrees_with_slots (t : GameObjectType) (code : Int) (hne : code ≠ -1)
    (hcode : ∀ g, isClassified g = true →
      (categoryToInt (getObjectCategory (some g)) = code ↔ g.m_objectType = t))
    (pRect : CCRect) (objs : List (Option GameObject)) (r : ℚ)
    (hr : IsMinOrSentinel (forwardDx t pRect objs) r) :
    AgreesWithSlots code
      (writeObjects (stdSort dxLess (scanObjects pRect objs).nearbyObjects)) r := by
  constructor
  · intro i s hs hty hpos hfirst
    obtain ⟨h30, hcase⟩ := slot_cases pRect objs i s hs
    rcases hcase with ⟨hi, hsg⟩ | ⟨_, hpad⟩
    · have hgi : (sortedRetained pRect objs).get ⟨i, hi⟩ ∈ sortedRetained pRect objs :=
        List.get_mem _ _ _
      have hdx : s.dx = offsetX pRect ((sortedRetained pRect objs).get ⟨i, hi⟩) := by
        rw [hsg]; rfl
      have hti : ((sortedRetained pRect objs).get ⟨i, hi⟩).m_objectType = t := by
        rw [← slotFor_code_iff t code pRect objs hcode _ hgi, ← hsg]; exact hty
      have hin : s.dx ∈ forwardDx t pRect objs := by
        rw [mem_forwardDx_iff]
        exact ⟨_, hgi, hti, by rw [← hdx]; exact hpos, hdx.symm⟩
      rcases hr with ⟨hnil, _⟩ | ⟨hrin, hrmin⟩
      · rw [hnil] at hin; exact absurd hin (List.not_mem_nil _)
      · apply le_antisymm (hrmin _ hin)
        obtain ⟨g', hg', ht', hpos', hx'⟩ := (mem_forwardDx_iff t pRect objs r).1 hrin
        obtain ⟨⟨j, hj⟩, hjg⟩ := List.mem_iff_get.1 hg'
        by_cases hji : j < i
        · exfalso
          have hsj := slot_populated pRect objs j hj (by omega)
          rw [hjg] at hsj
          refine hfirst j _ hji hsj ⟨?_, ?_⟩
          · rw [slotFor_code_iff t code pRect objs hcode g' hg']; exact ht'
          · exact hpos'
        · have := sortedRetained_le pRect objs i j (not_lt.1 hji) hj
          rw [hjg, hx', ← hdx] at this
          exact this
    · exfalso
      rw [hpad] at hty
      exact hne hty.symm
  · intro hnone
    rcases hr with ⟨_, h9⟩ | ⟨hrin, _⟩
    · left; exact h9
    · right
      obtain ⟨g', hg', ht', hpos', hx'⟩ := (mem_forwardDx_iff t pRect objs r).1 hrin
      obtain ⟨⟨j, hj⟩, hjg⟩ := List.mem_iff_get.1 hg'
      by_cases hj30 : j < 30
      · exfalso
        have hsj := slot_populated pRect objs j hj hj30
        rw [hjg] at hsj
        refine hnone j _ hsj ⟨?_, ?_⟩
        · rw [slotFor_code_iff t code pRect objs hcode g' hg']; exact ht'
        · exact hpos'
      · have h29 : 29 < (sortedRetained pRect objs).length := by omega
        refine ⟨slotFor pRect ((sortedRetained pRect objs).get ⟨29, h29⟩),
          slot_populated pRect objs 29 h29 (by norm_num), ?_⟩
        have := sortedRetained_le pRect objs 29 j (by omega) hj
        rw [hjg, hx'] at this
        exact this

theorem mem_slotForwardDx_iff (t : GameObjectType) (code : Int) (hne : code ≠ -1)
    (hcode : ∀ g, isClassified g = true →
      (categoryToInt (getObjectCategory (some g)) = code ↔ g.m_objectType = t))
    (pRect : CCRect) (objs : List (Option GameObject))
    (hlen : (retainedObjects pRect objs).length ≤ 30) (x : ℚ) :
    x ∈ slotForwardDx code
        (writeObjects (stdSort dxLess (scanObjects pRect objs).nearbyObjects)) ↔
      x ∈ forwardDx t pRect objs := by
  rw [mem_forwardDx_iff]
  simp only [slotForwardDx, List.mem_map, List.mem_filter, decide_eq_true_eq]
  constructor
  · rintro ⟨s, ⟨hs, hty, hpos⟩, hx⟩
    obtain ⟨i, hi, hget⟩ := List.mem_iff_getElem.1 hs
    have hs' : (writeObjects (stdSort dxLess (scanObjects pRect objs).nearbyObjects))[i]? =
        some s := by
      rw [List.getElem?_eq_getElem hi, hget]
    obtain ⟨_, hcase⟩ := slot_cases pRect objs i s hs'
    rcases hcase with ⟨hi2, hsg⟩ | ⟨_, hpad⟩
    · have hgi : (sortedRetained pRect objs).get ⟨i, hi2⟩ ∈ sortedRetained pRect objs :=
        List.get_mem _ _ _
      have hdx : s.dx = offsetX pRect ((sortedRetained pRect objs).get ⟨i, hi2⟩) := by
        rw [hsg]; rfl
      refine ⟨_, hgi, ?_, ?_, ?_⟩
      · rw [← slotFor_code_iff t code pRect objs hcode _ hgi, ← hsg]; exact hty
      · rw [← hdx]; exact hpos
      · rw [← hdx]; exact hx
    · exfalso
      rw [hpad] at hty
      exact hne hty.symm
  · rintro ⟨g, hg, ht, hpos, hx⟩
    obtain ⟨⟨j, hj⟩, hjg⟩ := List.mem_iff_get.1 hg
    have hj30 : j < 30 := by
      rw [sortedRetained_length] at hj
      omega
    have hsj := slot_populated pRect objs j hj hj30
    rw [hjg] at hsj
    refine ⟨slotFor pRect g, ⟨List.getElem?_mem hsj, ?_, hpos⟩, hx⟩
    rw [slotFor_code_iff t code pRect objs hcode g hg]; exact ht

theorem isMinOrSentinel_congr (l l' : List ℚ) (r : ℚ) (h : ∀ x, x ∈ l' ↔ x ∈ l)
    (hr : IsMinOrSentinel l r) : IsMinOrSentinel l' r := by
  rcases hr with ⟨hnil, h9⟩ | ⟨hin, hmin⟩
  · left
    refine ⟨List.eq_nil_iff_forall_not_mem.2 ?_, h9⟩
    intro x hx
    have := (h x).1 hx
    rw [hnil] at this
    exact absurd this (List.not_mem_nil _)
  · right
    exact ⟨(h r).2 hin, fun x hx => hmin x ((h x).1 hx)⟩

theorem code_one_iff_hazard (g : GameObject) (h : isClassified g = true) :
    categoryToInt (getObjectCategory (some g)) = 1 ↔
      g.m_objectType = GameObjectType.Hazard := by
  rcases classified_code g h with ⟨ht, hc⟩ | ⟨ht, hc⟩ | ⟨hH, _, hc⟩
  · exact ⟨fun _ => ht, fun _ => hc⟩
  · rw [hc, ht]
    exact ⟨fun h => absurd h (by decide), fun h => absurd h (by decide)⟩
  · rw [hc]
    exact ⟨fun h => absurd h (by decide), fun h => absurd h hH⟩

theorem code_two_iff_solid (g : GameObject) (h : isClassified g = true) :
    categoryToInt (getObjectCategory (some g)) = 2 ↔
      g.m_objectType = GameObjectType.Solid := by
  rcases classified_code g h with ⟨ht, hc⟩ | ⟨ht, hc⟩ | ⟨_, hS, hc⟩
  · rw [hc, ht]
    exact ⟨fun h => absurd h (by decide), fun h => absurd h (by decide)⟩
  · exact ⟨fun _ => ht, fun _ => hc⟩
  · rw [hc]
    exact ⟨fun h => absurd h (by decide), fun h => absurd h hS⟩

/-- C19: in every written snapshot the nearest distances agree with the slots:
if some slot has category 1 and `offset_x > 0`, `dist_nearest_hazard` is the
`offset_x` of the first such slot; if none has, it is 9999 or at least the
`offset_x` of slot 29; likewise `dist_nearest_solid` and category 2; and when at
most 30 objects are retained each distance is the least positive `offset_x` of
its category among the slots, or 9999. -/
theorem C19_distances_agree_with_slots (fr : Frame) (w : World) (player : PlayerObject)
    (mem : SharedState) (hp : fr.m_player1 = some player) (hm : w.pSharedMem = some mem)
    (hr : mem.reset_command ≠ 1) :
    ∃ out, (rl_loop fr w).world.pSharedMem = some out ∧
      AgreesWithSlots 1 out.objects out.dist_nearest_hazard ∧
      AgreesWithSlots 2 out.objects out.dist_nearest_solid ∧
      ((retainedObjects player.objectRect fr.m_objects).length ≤ 30 →
        IsMinOrSentinel (slotForwardDx 1 out.objects) out.dist_nearest_hazard ∧
          IsMinOrSentinel (slotForwardDx 2 out.objects) out.dist_nearest_solid) := by
  refine ⟨_, rl_loop_mem fr w player mem hp hm hr, ?_, ?_, ?_⟩
  · rw [writeSnapshot_objects, writeSnapshot_hazard]
    exact agrees_with_slots GameObjectType.Hazard 1 (by decide) code_one_iff_hazard _ _ _
      (scanObjects_nearestHazard _ _)
  · rw [writeSnapshot_objects, writeSnapshot_solid]
    exact agrees_with_slots GameObjectType.Solid 2 (by decide) code_two_iff_solid _ _ _
      (scanObjects_nearestSolid _ _)
  · intro hlen
    rw [writeSnapshot_objects, writeSnapshot_hazard, writeSnapshot_solid]
    exact ⟨isMinOrSentinel_congr _ _ _
        (mem_slotForwardDx_iff GameObjectType.Hazard 1 (by decide) code_one_iff_hazard _ _ hlen)
        (scanObjects_nearestHazard _ _),
      isMinOrSentinel_congr _ _ _
        (mem_slotForwardDx_iff GameObjectType.Solid 2 (by decide) code_two_iff_solid _ _ hlen)
        (scanObjects_nearestSolid _ _)⟩

/-- C19 on the sample frame (hazard at 30 in slot 1, solid at 10 in slot 0) and
on a frame with thirty solids at 1..30 and a hazard at 500: there no slot holds
a hazard, slot 29 is at 30 and the hazard distance is 500. -/
theorem C19_distances_agree_with_slots_witness :
    (∃ out, (rl_loop sampleFrame sampleWorld).world.pSharedMem = some out ∧
      AgreesWithSlots 1 out.objects out.dist_nearest_hazard ∧
      AgreesWithSlots 2 out.objects out.dist_nearest_solid ∧
      ((retainedObjects samplePlayer.objectRect sampleFrame.m_objects).length ≤ 30 →
        IsMinOrSentinel (slotForwardDx 1 out.objects) out.dist_nearest_hazard ∧
          IsMinOrSentinel (slotForwardDx 2 out.objects) out.dist_nearest_solid)) ∧
    (rl_loop sampleFrame sampleWorld).world.pSharedMem.map
        (fun m => (slotForwardDx 1 m.objects, m.dist_nearest_hazard,
          slotForwardDx 2 m.objects, m.dist_nearest_solid)) =
      some ([30], 30, [10], 10) ∧
    (rl_loop { sampleFrame with m_objects := crowdedObjects } sampleWorld).world.pSharedMem.map
        (fun m => (slotForwardDx 1 m.objects, m.dist_nearest_hazard,
          m.objects[29]?.map (fun s => s.dx), m.dist_nearest_solid)) =
      some ([], 500, some 30, 1) :=
  ⟨C19_distances_agree_with_slots sampleFrame sampleWorld samplePlayer zeroMem rfl rfl
      (by decide),
    by decide!, by decide!⟩

end GDRL
